import Mathlib

/-!
Shallow embedding of the proxmox websocket frame codec
(`src/proxmox/src/tools/websocket.rs`) and of the rest-server connection
accept loop (`src/proxmox-rest-server/src/connection.rs`), together with
proofs about the embedded definitions.

Bytes are modelled as `Nat` values below 256, byte strings as `List Nat`,
machine integers as `Nat` with explicit `% 2^w` where the source truncates.
Fallible functions return `Except`.
-/

/-- Represents an OpCode of a websocket frame, with the numeric values of the
source `#[repr(u8)]` enum. -/
inductive OpCode where
  | Continuation
  | Text
  | Binary
  | Close
  | Ping
  | Pong
deriving DecidableEq, Repr

/-- The `u8` value of an opcode (`frametype as u8` in the source). -/
def OpCode.toNat : OpCode → Nat
  | .Continuation => 0
  | .Text => 1
  | .Binary => 2
  | .Close => 8
  | .Ping => 9
  | .Pong => 10

/-- `OpCode::is_control` from the source: `(self as u8 & 0b1000) > 0`. -/
def OpCode.is_control (c : OpCode) : Bool := decide (c.toNat &&& 8 > 0)

/-- `u32::from_le_bytes` on a 4-byte mask list. -/
def u32_from_le (m : List Nat) : Nat :=
  m.getD 0 0 + 256 * m.getD 1 0 + 65536 * m.getD 2 0 + 16777216 * m.getD 3 0

/-- `u32::rotate_right(8)` for values below `2^32`. -/
def rotr8 (x : Nat) : Nat := x / 256 + x % 256 * 16777216

/-- Little-endian byte decomposition of a `u32` value (how a `u32` store is
laid out in the byte buffer on the little-endian targets the code runs on). -/
def u32_to_le (x : Nat) : List Nat :=
  [x % 256, x / 256 % 256, x / 65536 % 256, x / 16777216 % 256]

/-- The naive per-byte reference algorithm `data[i] ^= mask[i % 4]`, started
at byte index `i`.  This is the spec's reference for masking and is also,
at `i = 0`, the literal short-buffer loop of `mask_bytes`. -/
def naiveMaskFrom (m : List Nat) (i : Nat) : List Nat → List Nat
  | [] => []
  | b :: rest => (b ^^^ m.getD (i % 4) 0) :: naiveMaskFrom m (i + 1) rest

/-- The byte-wise loop of `mask_bytes` over the unaligned head or tail:
`*p ^= newmask as u8; newmask = newmask.rotate_right(8)`. -/
def maskBytesRot (nm : Nat) : List Nat → List Nat
  | [] => []
  | b :: rest => (b ^^^ nm % 256) :: maskBytesRot (rotr8 nm) rest

/-- The word loop of `mask_bytes`: each aligned 4-byte group is XORed as one
`u32` with the (fixed) rotated mask word. -/
def maskWords (nm : Nat) : List Nat → List Nat
  | b0 :: b1 :: b2 :: b3 :: rest =>
      u32_to_le (u32_from_le [b0, b1, b2, b3] ^^^ nm) ++ maskWords nm rest
  | l => l

/-- `mask_bytes` from the source.  `p` is the length of the unaligned
byte-wise head that `align_to_mut::<u32>` yields; it depends on the buffer's
address and satisfies `p < 4` whenever the word path is taken
(the buffer then holds at least 32 bytes). -/
def maskBytesSome (m : List Nat) (p : Nat) (data : List Nat) : List Nat :=
  if m = [0, 0, 0, 0] then data
  else if data.length < 32 then naiveMaskFrom m 0 data
  else
    maskBytesRot (u32_from_le m) (data.take p) ++
      maskWords (rotr8^[p] (u32_from_le m))
        ((data.drop p).take (4 * ((data.drop p).length / 4))) ++
      maskBytesRot (rotr8^[p] (u32_from_le m))
        ((data.drop p).drop (4 * ((data.drop p).length / 4)))

def mask_bytes (mask : Option (List Nat)) (p : Nat) (data : List Nat) : List Nat :=
  match mask with
  | none => data
  | some m => maskBytesSome m p data

/-- Byte `i % 4` of a mask list: the mask byte the naive algorithm applies
at payload index `i`. -/
def maskByte (m : List Nat) (i : Nat) : Nat := m.getD (i % 4) 0

theorem xor_mod_two_pow (x y k : Nat) :
    (x ^^^ y) % 2 ^ k = x % 2 ^ k ^^^ y % 2 ^ k := by
  apply Nat.eq_of_testBit_eq
  intro i
  simp only [Nat.testBit_mod_two_pow, Nat.testBit_xor]
  by_cases h : i < k <;> simp [h]

theorem xor_div_two_pow (x y k : Nat) :
    (x ^^^ y) / 2 ^ k = x / 2 ^ k ^^^ y / 2 ^ k := by
  apply Nat.eq_of_testBit_eq
  intro i
  rw [← Nat.shiftRight_eq_div_pow, ← Nat.shiftRight_eq_div_pow,
    ← Nat.shiftRight_eq_div_pow]
  simp [Nat.testBit_shiftRight, Nat.testBit_xor]

theorem xor_mod_256 (x y : Nat) : (x ^^^ y) % 256 = x % 256 ^^^ y % 256 := by
  have h := xor_mod_two_pow x y 8
  norm_num at h
  exact h

theorem xor_div_256 (x y : Nat) : (x ^^^ y) / 256 = x / 256 ^^^ y / 256 := by
  have h := xor_div_two_pow x y 8
  norm_num at h
  exact h

theorem xor_div_65536 (x y : Nat) : (x ^^^ y) / 65536 = x / 65536 ^^^ y / 65536 := by
  have h := xor_div_two_pow x y 16
  norm_num at h
  exact h

theorem xor_div_2pow24 (x y : Nat) :
    (x ^^^ y) / 16777216 = x / 16777216 ^^^ y / 16777216 := by
  have h := xor_div_two_pow x y 24
  norm_num at h
  exact h

theorem maskByte_lt (m0 m1 m2 m3 : Nat) (h0 : m0 < 256) (h1 : m1 < 256)
    (h2 : m2 < 256) (h3 : m3 < 256) (i : Nat) :
    maskByte [m0, m1, m2, m3] i < 256 := by
  unfold maskByte
  have h : i % 4 = 0 ∨ i % 4 = 1 ∨ i % 4 = 2 ∨ i % 4 = 3 := by omega
  rcases h with h | h | h | h <;> simp [h, List.getD] <;> assumption

theorem maskByte_period (m : List Nat) (i : Nat) :
    maskByte m (i + 4) = maskByte m i := by
  unfold maskByte
  rw [Nat.add_mod_right]

theorem rotr8_quad (a b c d : Nat) (ha : a < 256) :
    rotr8 (a + 256 * b + 65536 * c + 16777216 * d) =
      b + 256 * c + 65536 * d + 16777216 * a := by
  unfold rotr8
  omega

theorem rotr8_iterate (m0 m1 m2 m3 : Nat) (h0 : m0 < 256) (h1 : m1 < 256)
    (h2 : m2 < 256) (h3 : m3 < 256) (k : Nat) :
    rotr8^[k] (u32_from_le [m0, m1, m2, m3]) =
      maskByte [m0, m1, m2, m3] k + 256 * maskByte [m0, m1, m2, m3] (k + 1) +
        65536 * maskByte [m0, m1, m2, m3] (k + 2) +
        16777216 * maskByte [m0, m1, m2, m3] (k + 3) := by
  induction k with
  | zero =>
    simp [u32_from_le, maskByte, List.getD]
  | succ k ih =>
    rw [Function.iterate_succ_apply', ih,
      rotr8_quad _ _ _ _ (maskByte_lt m0 m1 m2 m3 h0 h1 h2 h3 k)]
    have h4 : maskByte [m0, m1, m2, m3] (k + 4) = maskByte [m0, m1, m2, m3] k :=
      maskByte_period _ k
    rw [show k + 1 + 1 = k + 2 from rfl, show k + 1 + 2 = k + 3 from rfl,
      show k + 1 + 3 = k + 4 from rfl, h4]

theorem rotr8_iterate_mod256 (m0 m1 m2 m3 : Nat) (h0 : m0 < 256) (h1 : m1 < 256)
    (h2 : m2 < 256) (h3 : m3 < 256) (k : Nat) :
    rotr8^[k] (u32_from_le [m0, m1, m2, m3]) % 256 = maskByte [m0, m1, m2, m3] k := by
  rw [rotr8_iterate m0 m1 m2 m3 h0 h1 h2 h3 k]
  have := maskByte_lt m0 m1 m2 m3 h0 h1 h2 h3 k
  omega

theorem rotr8_iterate_period (m0 m1 m2 m3 : Nat) (h0 : m0 < 256) (h1 : m1 < 256)
    (h2 : m2 < 256) (h3 : m3 < 256) (k : Nat) :
    rotr8^[k + 4] (u32_from_le [m0, m1, m2, m3]) =
      rotr8^[k] (u32_from_le [m0, m1, m2, m3]) := by
  rw [rotr8_iterate m0 m1 m2 m3 h0 h1 h2 h3, rotr8_iterate m0 m1 m2 m3 h0 h1 h2 h3]
  have e1 : k + 4 + 1 = k + 1 + 4 := by omega
  have e2 : k + 4 + 2 = k + 2 + 4 := by omega
  have e3 : k + 4 + 3 = k + 3 + 4 := by omega
  rw [e1, e2, e3, maskByte_period, maskByte_period, maskByte_period, maskByte_period]

theorem maskBytesRot_eq_naive (m0 m1 m2 m3 : Nat) (h0 : m0 < 256) (h1 : m1 < 256)
    (h2 : m2 < 256) (h3 : m3 < 256) (l : List Nat) :
    ∀ k : Nat,
      maskBytesRot (rotr8^[k] (u32_from_le [m0, m1, m2, m3])) l =
        naiveMaskFrom [m0, m1, m2, m3] k l := by
  induction l with
  | nil => intro k; rfl
  | cons b rest ih =>
    intro k
    rw [maskBytesRot, naiveMaskFrom,
      rotr8_iterate_mod256 m0 m1 m2 m3 h0 h1 h2 h3 k,
      ← Function.iterate_succ_apply' rotr8 k, ih (k + 1)]
    rfl

theorem word_xor_bytes (b0 b1 b2 b3 a0 a1 a2 a3 : Nat)
    (hb0 : b0 < 256) (hb1 : b1 < 256) (hb2 : b2 < 256) (hb3 : b3 < 256)
    (ha0 : a0 < 256) (ha1 : a1 < 256) (ha2 : a2 < 256) (ha3 : a3 < 256) :
    u32_to_le (u32_from_le [b0, b1, b2, b3] ^^^
        (a0 + 256 * a1 + 65536 * a2 + 16777216 * a3)) =
      [b0 ^^^ a0, b1 ^^^ a1, b2 ^^^ a2, b3 ^^^ a3] := by
  have hXfrom : u32_from_le [b0, b1, b2, b3] =
      b0 + 256 * b1 + 65536 * b2 + 16777216 * b3 := by
    simp [u32_from_le, List.getD]
  set X := u32_from_le [b0, b1, b2, b3] with hX
  set Y := a0 + 256 * a1 + 65536 * a2 + 16777216 * a3 with hY
  have hXm : X % 256 = b0 := by rw [hXfrom]; omega
  have hYm : Y % 256 = a0 := by rw [hY]; omega
  have hXd8 : X / 256 % 256 = b1 := by rw [hXfrom]; omega
  have hYd8 : Y / 256 % 256 = a1 := by rw [hY]; omega
  have hXd16 : X / 65536 % 256 = b2 := by rw [hXfrom]; omega
  have hYd16 : Y / 65536 % 256 = a2 := by rw [hY]; omega
  have hXd24 : X / 16777216 % 256 = b3 := by rw [hXfrom]; omega
  have hYd24 : Y / 16777216 % 256 = a3 := by rw [hY]; omega
  unfold u32_to_le
  have e0 : (X ^^^ Y) % 256 = b0 ^^^ a0 := by
    rw [xor_mod_256, hXm, hYm]
  have e1 : (X ^^^ Y) / 256 % 256 = b1 ^^^ a1 := by
    rw [xor_div_256, xor_mod_256, hXd8, hYd8]
  have e2 : (X ^^^ Y) / 65536 % 256 = b2 ^^^ a2 := by
    rw [xor_div_65536, xor_mod_256, hXd16, hYd16]
  have e3 : (X ^^^ Y) / 16777216 % 256 = b3 ^^^ a3 := by
    rw [xor_div_2pow24, xor_mod_256, hXd24, hYd24]
  rw [e0, e1, e2, e3]

theorem naiveMaskFrom_congr (m : List Nat) (l : List Nat) :
    ∀ i j : Nat, i % 4 = j % 4 → naiveMaskFrom m i l = naiveMaskFrom m j l := by
  induction l with
  | nil => intro i j _; rfl
  | cons b rest ih =>
    intro i j h
    rw [naiveMaskFrom, naiveMaskFrom, h, ih (i + 1) (j + 1) (by omega)]

theorem naiveMaskFrom_append (m : List Nat) :
    ∀ (l1 l2 : List Nat) (i : Nat),
      naiveMaskFrom m i (l1 ++ l2) =
        naiveMaskFrom m i l1 ++ naiveMaskFrom m (i + l1.length) l2 := by
  intro l1
  induction l1 with
  | nil => intro l2 i; simp [naiveMaskFrom]
  | cons b rest ih =>
    intro l2 i
    rw [List.cons_append, naiveMaskFrom, naiveMaskFrom, ih l2 (i + 1)]
    simp only [List.length_cons, List.cons_append, List.cons.injEq, true_and]
    rw [show i + 1 + rest.length = i + (rest.length + 1) by omega]

theorem maskWords_eq_naive (m0 m1 m2 m3 : Nat) (h0 : m0 < 256) (h1 : m1 < 256)
    (h2 : m2 < 256) (h3 : m3 < 256) :
    ∀ (n : Nat) (l : List Nat) (k : Nat), l.length ≤ n → l.length % 4 = 0 →
      (∀ b ∈ l, b < 256) →
      maskWords (rotr8^[k] (u32_from_le [m0, m1, m2, m3])) l =
        naiveMaskFrom [m0, m1, m2, m3] k l := by
  intro n
  induction n with
  | zero =>
    intro l k hlen _ _
    have : l = [] := List.length_eq_zero.mp (by omega)
    subst this
    rfl
  | succ n ih =>
    intro l k hlen hmod hb
    rcases l with _ | ⟨b0, _ | ⟨b1, _ | ⟨b2, _ | ⟨b3, rest⟩⟩⟩⟩
    · rfl
    · simp at hmod
    · simp at hmod
    · simp at hmod
    ·
      have hb0 : b0 < 256 := hb b0 (by simp)
      have hb1 : b1 < 256 := hb b1 (by simp)
      have hb2 : b2 < 256 := hb b2 (by simp)
      have hb3 : b3 < 256 := hb b3 (by simp)
      rw [maskWords, rotr8_iterate m0 m1 m2 m3 h0 h1 h2 h3 k,
        word_xor_bytes b0 b1 b2 b3 _ _ _ _ hb0 hb1 hb2 hb3
          (maskByte_lt m0 m1 m2 m3 h0 h1 h2 h3 k)
          (maskByte_lt m0 m1 m2 m3 h0 h1 h2 h3 (k + 1))
          (maskByte_lt m0 m1 m2 m3 h0 h1 h2 h3 (k + 2))
          (maskByte_lt m0 m1 m2 m3 h0 h1 h2 h3 (k + 3))]
      have hrest : maskWords
          (maskByte [m0, m1, m2, m3] k + 256 * maskByte [m0, m1, m2, m3] (k + 1) +
            65536 * maskByte [m0, m1, m2, m3] (k + 2) +
            16777216 * maskByte [m0, m1, m2, m3] (k + 3)) rest =
          naiveMaskFrom [m0, m1, m2, m3] (k + 4) rest := by
        rw [← rotr8_iterate m0 m1 m2 m3 h0 h1 h2 h3 k,
          ← rotr8_iterate_period m0 m1 m2 m3 h0 h1 h2 h3 k]
        exact ih rest (k + 4) (by simp at hlen ⊢; omega)
          (by simp at hmod ⊢; omega)
          (fun b hbmem => hb b (by simp [hbmem]))
      rw [hrest]
      rfl

theorem naiveMaskFrom_zero (l : List Nat) : ∀ i, naiveMaskFrom [0, 0, 0, 0] i l = l := by
  induction l with
  | nil => intro i; rfl
  | cons b rest ih =>
    intro i
    rw [naiveMaskFrom, ih (i + 1)]
    have hz : ([0, 0, 0, 0] : List Nat).getD (i % 4) 0 = 0 := by
      have h : i % 4 = 0 ∨ i % 4 = 1 ∨ i % 4 = 2 ∨ i % 4 = 3 := by omega
      rcases h with h | h | h | h <;> simp [h, List.getD]
    rw [hz, Nat.xor_zero]

theorem mask_bytes_naive_helper (m0 m1 m2 m3 p : Nat) (data : List Nat)
    (h0 : m0 < 256) (h1 : m1 < 256) (h2 : m2 < 256) (h3 : m3 < 256)
    (hp : p < 4) (hdata : ∀ b ∈ data, b < 256) :
    mask_bytes (some [m0, m1, m2, m3]) p data =
        naiveMaskFrom [m0, m1, m2, m3] 0 data ∧
      mask_bytes none p data = data ∧
      mask_bytes (some [0, 0, 0, 0]) p data = data := by
  refine ⟨?_, rfl, by simp [mask_bytes, maskBytesSome]⟩
  show maskBytesSome [m0, m1, m2, m3] p data = _
  unfold maskBytesSome
  by_cases hzero : [m0, m1, m2, m3] = ([0, 0, 0, 0] : List Nat)
  · rw [if_pos hzero, hzero, naiveMaskFrom_zero data 0]
  · rw [if_neg hzero]
    by_cases hshort : data.length < 32
    · rw [if_pos hshort]
    · rw [if_neg hshort]
      have hlen : 32 ≤ data.length := by omega
      have hple : p ≤ data.length := by omega
      have htake_len : (data.take p).length = p := by
        simp [List.length_take]
        omega
      have hmid_len : ((data.drop p).take (4 * ((data.drop p).length / 4))).length =
          4 * ((data.drop p).length / 4) := by
        simp [List.length_take]
        omega
      conv_rhs => rw [← List.take_append_drop p data]
      rw [naiveMaskFrom_append]
      conv_rhs =>
        rw [← List.take_append_drop (4 * ((data.drop p).length / 4)) (data.drop p)]
      rw [naiveMaskFrom_append, htake_len, hmid_len]
      have hpiece1 : maskBytesRot (u32_from_le [m0, m1, m2, m3]) (data.take p) =
          naiveMaskFrom [m0, m1, m2, m3] 0 (data.take p) := by
        rw [show u32_from_le [m0, m1, m2, m3] =
            rotr8^[0] (u32_from_le [m0, m1, m2, m3]) from rfl]
        exact maskBytesRot_eq_naive m0 m1 m2 m3 h0 h1 h2 h3 _ 0
      have hpiece2 : maskWords (rotr8^[p] (u32_from_le [m0, m1, m2, m3]))
            ((data.drop p).take (4 * ((data.drop p).length / 4))) =
          naiveMaskFrom [m0, m1, m2, m3] (0 + p)
            ((data.drop p).take (4 * ((data.drop p).length / 4))) := by
        rw [Nat.zero_add]
        refine maskWords_eq_naive m0 m1 m2 m3 h0 h1 h2 h3 _ _ p le_rfl ?_ ?_
        · rw [hmid_len]; omega
        · intro b hb
          exact hdata b (List.drop_subset p data (List.take_subset _ _ hb))
      have hpiece3 : maskBytesRot (rotr8^[p] (u32_from_le [m0, m1, m2, m3]))
            ((data.drop p).drop (4 * ((data.drop p).length / 4))) =
          naiveMaskFrom [m0, m1, m2, m3] (0 + p + 4 * ((data.drop p).length / 4))
            ((data.drop p).drop (4 * ((data.drop p).length / 4))) := by
        rw [maskBytesRot_eq_naive m0 m1 m2 m3 h0 h1 h2 h3 _ p]
        exact naiveMaskFrom_congr _ _ p (0 + p + 4 * ((data.drop p).length / 4))
          (by omega)
      rw [hpiece1, hpiece2, hpiece3, List.append_assoc]

/-- C4: for every buffer (any length and alignment split `p < 4` chosen by
`align_to_mut`) and every mask, `mask_bytes` — byte-wise for buffers under
32 bytes, otherwise unaligned head and tail byte-wise and the aligned middle
in 4-byte words with a rotating mask word — produces exactly the same bytes
as the naive reference algorithm `data[i] ^= mask[i % 4]`; with mask `None`
or `[0,0,0,0]` the buffer is unchanged. -/
theorem c4_mask_bytes_matches_naive (m0 m1 m2 m3 p : Nat) (data : List Nat)
    (h0 : m0 < 256) (h1 : m1 < 256) (h2 : m2 < 256) (h3 : m3 < 256)
    (hp : p < 4) (hdata : ∀ b ∈ data, b < 256) :
    mask_bytes (some [m0, m1, m2, m3]) p data =
        naiveMaskFrom [m0, m1, m2, m3] 0 data ∧
      mask_bytes none p data = data ∧
      mask_bytes (some [0, 0, 0, 0]) p data = data :=
  mask_bytes_naive_helper m0 m1 m2 m3 p data h0 h1 h2 h3 hp hdata

/-- Witness for C4 at a concrete mask, alignment split and 40-byte buffer. -/
theorem c4_mask_bytes_matches_naive_witness :
    mask_bytes (some [1, 2, 3, 4]) 3 (List.range 40) =
        naiveMaskFrom [1, 2, 3, 4] 0 (List.range 40) ∧
      mask_bytes none 3 (List.range 40) = List.range 40 ∧
      mask_bytes (some [0, 0, 0, 0]) 3 (List.range 40) = List.range 40 :=
  c4_mask_bytes_matches_naive 1 2 3 4 3 (List.range 40) (by decide) (by decide)
    (by decide) (by decide) (by decide) (by decide)

theorem byte_xor_lt (a b : Nat) (ha : a < 256) (hb : b < 256) : a ^^^ b < 256 := by
  have h := Nat.xor_lt_two_pow (n := 8) (by norm_num at ha ⊢; exact ha)
    (by norm_num at hb ⊢; exact hb)
  norm_num at h
  exact h

theorem naiveMaskFrom_involutive (m : List Nat) (l : List Nat) :
    ∀ i, naiveMaskFrom m i (naiveMaskFrom m i l) = l := by
  induction l with
  | nil => intro i; rfl
  | cons b rest ih =>
    intro i
    rw [naiveMaskFrom, naiveMaskFrom, ih (i + 1), Nat.xor_cancel_right]

theorem naiveMaskFrom_length (m : List Nat) (l : List Nat) :
    ∀ i, (naiveMaskFrom m i l).length = l.length := by
  induction l with
  | nil => intro i; rfl
  | cons b rest ih =>
    intro i
    rw [naiveMaskFrom, List.length_cons, List.length_cons, ih (i + 1)]

theorem naiveMaskFrom_mem_lt (m0 m1 m2 m3 : Nat) (h0 : m0 < 256) (h1 : m1 < 256)
    (h2 : m2 < 256) (h3 : m3 < 256) (l : List Nat) (hl : ∀ b ∈ l, b < 256) :
    ∀ i, ∀ b ∈ naiveMaskFrom [m0, m1, m2, m3] i l, b < 256 := by
  induction l with
  | nil => intro i b hb; simp [naiveMaskFrom] at hb
  | cons c rest ih =>
    intro i b hb
    rw [naiveMaskFrom] at hb
    rcases List.mem_cons.mp hb with h | h
    · subst h
      exact byte_xor_lt _ _ (hl c (by simp)) (maskByte_lt m0 m1 m2 m3 h0 h1 h2 h3 i)
    · exact ih (fun x hx => hl x (by simp [hx])) (i + 1) b h

/-- `(len as u16).to_be_bytes()`; the cast truncates at `2^16`. -/
def u16_be (n : Nat) : List Nat := [n % 65536 / 256, n % 256]

/-- `(len as u64).to_be_bytes()` for values below `2^64`. -/
def u64_be (n : Nat) : List Nat :=
  [n / 72057594037927936 % 256, n / 281474976710656 % 256,
   n / 1099511627776 % 256, n / 4294967296 % 256, n / 16777216 % 256,
   n / 65536 % 256, n / 256 % 256, n % 256]

/-- `u16::from_be_bytes([a, b])`. -/
def u16_from_be (a b : Nat) : Nat := 256 * a + b

/-- `u64::from_be_bytes` on eight bytes. -/
def u64_from_be (b0 b1 b2 b3 b4 b5 b6 b7 : Nat) : Nat :=
  ((((((b0 * 256 + b1) * 256 + b2) * 256 + b3) * 256 + b4) * 256 + b5) * 256 + b6)
    * 256 + b7

/-- The `mask_bit` byte of `create_frame`: `0b10000000` if a mask is given. -/
def maskBit (mask : Option (List Nat)) : Nat := if mask.isSome then 128 else 0

/-- The length byte(s) `create_frame` pushes after the first byte:
literal length below 126, `126` plus two big-endian bytes below
`u16::MAX` (65535), else `127` plus eight big-endian bytes. -/
def lenBytes (mb len : Nat) : List Nat :=
  if len < 126 then [mb ||| len]
  else if len < 65535 then (mb ||| 126) :: u16_be len
  else (mb ||| 127) :: u64_be len

/-- The mask bytes `create_frame` appends (none when the mask is absent). -/
def maskListOf : Option (List Nat) → List Nat
  | some m => m
  | none => []

/-- `create_frame` from the source: first byte `0b10000000 | opcode`, the
length encoding, the mask bytes if any, then the masked payload.  Control
frames with more than 125 payload bytes are rejected.  `p` is the alignment
split used by the internal `mask_bytes` call. -/
def create_frame (mask : Option (List Nat)) (data : List Nat) (frametype : OpCode)
    (p : Nat) : Except String (List Nat) :=
  if frametype.toNat &&& 8 > 0 ∧ data.length > 125 then
    .error "Control frames cannot have data longer than 125 bytes"
  else
    .ok ((128 ||| frametype.toNat) ::
      lenBytes (maskBit mask) data.length ++ maskListOf mask ++ mask_bytes mask p data)

/-- Represents the header of a websocket frame. -/
structure FrameHeader where
  fin : Bool
  mask : Option (List Nat)
  frametype : OpCode
  header_len : Nat
  payload_len : Nat
deriving DecidableEq, Repr

instance {ε α : Type} [DecidableEq ε] [DecidableEq α] : DecidableEq (Except ε α) :=
  fun x y =>
    match x, y with
    | .error a, .error b =>
      if h : a = b then .isTrue (by rw [h])
      else .isFalse (fun hc => by cases hc; exact h rfl)
    | .error _, .ok _ => .isFalse (fun hc => by cases hc)
    | .ok _, .error _ => .isFalse (fun hc => by cases hc)
    | .ok a, .ok b =>
      if h : a = b then .isTrue (by rw [h])
      else .isFalse (fun hc => by cases hc; exact h rfl)

/-- `FrameHeader::is_control_frame`. -/
def FrameHeader.is_control_frame (h : FrameHeader) : Bool := h.frametype.is_control

/-- The opcode match of `try_from_bytes` on `data[0] & 0b1111`. -/
def decodeOp (n : Nat) : Option OpCode :=
  match n with
  | 0 => some .Continuation
  | 1 => some .Text
  | 2 => some .Binary
  | 8 => some .Close
  | 9 => some .Ping
  | 10 => some .Pong
  | _ => none

/-- Tail of `try_from_bytes` once the payload length is resolved: the
oversized-control check, mask extraction and header assembly.  `extra` is
the number of extended-length bytes consumed (0, 2 or 8), so the mask (if
any) starts at offset `2 + extra` and the header ends at
`2 + extra + 4`/`2 + extra`. -/
def finishHeader (data : List Nat) (fin : Bool) (frametype : OpCode)
    (mask_bit : Bool) (payload_len extra : Nat) :
    Except String (Except Nat FrameHeader) :=
  if payload_len > 125 ∧ frametype.is_control then
    .error "Control frames cannot carry more than 125 bytes of data"
  else if mask_bit then
    if data.length < 2 + extra + 4 then .ok (.error (2 + extra + 4 - data.length))
    else .ok (.ok ⟨fin, some ((data.drop (2 + extra)).take 4), frametype,
      2 + extra + 4, payload_len⟩)
  else .ok (.ok ⟨fin, none, frametype, 2 + extra, payload_len⟩)

/-- `FrameHeader::try_from_bytes` from the source.  The result `.ok (.error n)`
mirrors `Ok(Err(n))`: `n` more bytes are needed before parsing can proceed. -/
def FrameHeader.try_from_bytes (data : List Nat) :
    Except String (Except Nat FrameHeader) :=
  if data.length < 2 then .ok (.error (2 - data.length))
  else if data.getD 0 0 &&& 112 > 0 then .error "Extensions not supported"
  else
    match decodeOp (data.getD 0 0 &&& 15) with
    | none => .error "Unknown OpCode"
    | some frametype =>
      if (!(data.getD 0 0 &&& 128 != 0)) && frametype.is_control then
        .error "Control frames cannot be fragmented"
      else if data.getD 1 0 &&& 127 = 126 then
        if data.length < 4 then .ok (.error (4 - data.length))
        else finishHeader data (data.getD 0 0 &&& 128 != 0) frametype
          (data.getD 1 0 &&& 128 != 0) (u16_from_be (data.getD 2 0) (data.getD 3 0)) 2
      else if data.getD 1 0 &&& 127 = 127 then
        if data.length < 10 then .ok (.error (10 - data.length))
        else finishHeader data (data.getD 0 0 &&& 128 != 0) frametype
          (data.getD 1 0 &&& 128 != 0)
          (u64_from_be (data.getD 2 0) (data.getD 3 0) (data.getD 4 0) (data.getD 5 0)
            (data.getD 6 0) (data.getD 7 0) (data.getD 8 0) (data.getD 9 0)) 8
      else finishHeader data (data.getD 0 0 &&& 128 != 0) frametype
        (data.getD 1 0 &&& 128 != 0) (data.getD 1 0 &&& 127) 0

/-- C2 counterexample: a payload of exactly 65535 bytes is encoded by
`create_frame` with the 64-bit extended form — the second frame byte is the
length code 127, not the 16-bit code 126 the claim states (the source takes
the 16-bit branch only for `len < u16::MAX`, i.e. lengths up to 65534). -/
theorem c2_length_encoding_counterexample :
    (create_frame none (List.replicate 65535 7) OpCode.Binary 0).map
        (fun f => f.take 2) = .ok [130, 127] := by
  unfold create_frame
  rw [List.length_replicate, if_neg (by decide)]
  simp only [Except.map, lenBytes, maskBit, maskListOf, mask_bytes]
  norm_num
  decide

/-- C2 (amended): length-encoding boundaries of `create_frame`: a 125-byte
payload uses the 1-byte literal length; a 126-byte payload uses the 16-bit
extended form (length code 126 followed by two big-endian bytes); payloads
of 65535 and 65536 bytes use the 64-bit extended form (length code 127
followed by eight big-endian bytes). -/
theorem c2_length_encoding_boundaries (d1 d2 d3 d4 : List Nat)
    (h1 : d1.length = 125) (h2 : d2.length = 126)
    (h3 : d3.length = 65535) (h4 : d4.length = 65536) :
    create_frame none d1 OpCode.Binary 0 = .ok (130 :: 125 :: d1) ∧
    create_frame none d2 OpCode.Binary 0 = .ok (130 :: 126 :: 0 :: 126 :: d2) ∧
    create_frame none d3 OpCode.Binary 0 =
      .ok (130 :: 127 :: 0 :: 0 :: 0 :: 0 :: 0 :: 0 :: 255 :: 255 :: d3) ∧
    create_frame none d4 OpCode.Binary 0 =
      .ok (130 :: 127 :: 0 :: 0 :: 0 :: 0 :: 0 :: 1 :: 0 :: 0 :: d4) := by
  refine ⟨?_, ?_, ?_, ?_⟩ <;> unfold create_frame
  · rw [h1, if_neg (by decide)]
    simp only [lenBytes, maskBit, maskListOf, mask_bytes]
    norm_num
    decide
  · rw [h2, if_neg (by decide)]
    simp only [lenBytes, maskBit, maskListOf, mask_bytes, u16_be]
    norm_num
    decide
  · rw [h3, if_neg (by decide)]
    simp only [lenBytes, maskBit, maskListOf, mask_bytes, u64_be]
    norm_num
    decide
  · rw [h4, if_neg (by decide)]
    simp only [lenBytes, maskBit, maskListOf, mask_bytes, u64_be]
    norm_num
    decide

/-- Witness for the amended C2 statement at concrete payloads. -/
theorem c2_length_encoding_boundaries_witness :
    create_frame none (List.replicate 125 7) OpCode.Binary 0 =
        .ok (130 :: 125 :: List.replicate 125 7) ∧
      create_frame none (List.replicate 126 7) OpCode.Binary 0 =
        .ok (130 :: 126 :: 0 :: 126 :: List.replicate 126 7) ∧
      create_frame none (List.replicate 65535 7) OpCode.Binary 0 =
        .ok (130 :: 127 :: 0 :: 0 :: 0 :: 0 :: 0 :: 0 :: 255 :: 255 ::
          List.replicate 65535 7) ∧
      create_frame none (List.replicate 65536 7) OpCode.Binary 0 =
        .ok (130 :: 127 :: 0 :: 0 :: 0 :: 0 :: 0 :: 1 :: 0 :: 0 ::
          List.replicate 65536 7) :=
  c2_length_encoding_boundaries (List.replicate 125 7) (List.replicate 126 7)
    (List.replicate 65535 7) (List.replicate 65536 7)
    (List.length_replicate 125 7) (List.length_replicate 126 7)
    (List.length_replicate 65535 7) (List.length_replicate 65536 7)

theorem and_small_bits : ∀ n < 128, n &&& 127 = n ∧ n &&& 128 = 0 := by decide

theorem or128_bits : ∀ n < 128, (128 ||| n) &&& 127 = n ∧ (128 ||| n) &&& 128 = 128 := by
  decide

theorem parse_lit_none (op : OpCode) (len : Nat) (tail : List Nat) (hlen : len < 126) :
    FrameHeader.try_from_bytes ((128 ||| op.toNat) :: (0 ||| len) :: tail) =
      .ok (.ok ⟨true, none, op, 2, len⟩) := by
  have hext : ¬((128 ||| op.toNat) &&& 112 > 0) := by cases op <;> decide
  have hdec : decodeOp ((128 ||| op.toNat) &&& 15) = some op := by cases op <;> decide
  have hfin : ((128 ||| op.toNat) &&& 128 != 0) = true := by cases op <;> decide
  have hand : len &&& 127 = len ∧ len &&& 128 = 0 := and_small_bits len (by omega)
  unfold FrameHeader.try_from_bytes
  rw [if_neg (by simp)]
  simp only [List.getD_cons_zero, List.getD_cons_succ, Nat.zero_or]
  rw [if_neg hext, hdec]
  simp only [hfin, Bool.not_true, Bool.false_and, Bool.false_eq_true, if_false,
    hand.1, hand.2]
  rw [if_neg (by omega), if_neg (by omega)]
  unfold finishHeader
  rw [if_neg (by rintro ⟨h, _⟩; omega)]
  simp

theorem parse_lit_some (op : OpCode) (len a b c d : Nat) (tail : List Nat)
    (hlen : len < 126) :
    FrameHeader.try_from_bytes
        ((128 ||| op.toNat) :: (128 ||| len) :: a :: b :: c :: d :: tail) =
      .ok (.ok ⟨true, some [a, b, c, d], op, 6, len⟩) := by
  have hext : ¬((128 ||| op.toNat) &&& 112 > 0) := by cases op <;> decide
  have hdec : decodeOp ((128 ||| op.toNat) &&& 15) = some op := by cases op <;> decide
  have hfin : ((128 ||| op.toNat) &&& 128 != 0) = true := by cases op <;> decide
  have hor : (128 ||| len) &&& 127 = len ∧ (128 ||| len) &&& 128 = 128 :=
    or128_bits len (by omega)
  unfold FrameHeader.try_from_bytes
  rw [if_neg (by simp)]
  simp only [List.getD_cons_zero, List.getD_cons_succ]
  rw [if_neg hext, hdec]
  simp only [hfin, Bool.not_true, Bool.false_and, Bool.false_eq_true, if_false,
    hor.1, hor.2]
  rw [if_neg (by omega), if_neg (by omega)]
  unfold finishHeader
  rw [if_neg (by rintro ⟨h, _⟩; omega)]
  rw [if_pos (by decide), if_neg (by simp)]
  simp

theorem parse_ext16_none (op : OpCode) (x y : Nat) (tail : List Nat)
    (hsafe : ¬(u16_from_be x y > 125 ∧ op.is_control = true)) :
    FrameHeader.try_from_bytes ((128 ||| op.toNat) :: (0 ||| 126) :: x :: y :: tail) =
      .ok (.ok ⟨true, none, op, 4, u16_from_be x y⟩) := by
  have hext : ¬((128 ||| op.toNat) &&& 112 > 0) := by cases op <;> decide
  have hdec : decodeOp ((128 ||| op.toNat) &&& 15) = some op := by cases op <;> decide
  have hfin : ((128 ||| op.toNat) &&& 128 != 0) = true := by cases op <;> decide
  unfold FrameHeader.try_from_bytes
  rw [if_neg (by simp)]
  simp only [List.getD_cons_zero, List.getD_cons_succ]
  rw [if_neg hext, hdec]
  simp only [hfin, Bool.not_true, Bool.false_and, Bool.false_eq_true, if_false]
  rw [if_pos (by decide), if_neg (by simp)]
  unfold finishHeader
  rw [if_neg hsafe]
  rw [if_neg (by decide)]

theorem parse_ext16_some (op : OpCode) (x y a b c d : Nat) (tail : List Nat)
    (hsafe : ¬(u16_from_be x y > 125 ∧ op.is_control = true)) :
    FrameHeader.try_from_bytes
        ((128 ||| op.toNat) :: (128 ||| 126) :: x :: y :: a :: b :: c :: d :: tail) =
      .ok (.ok ⟨true, some [a, b, c, d], op, 8, u16_from_be x y⟩) := by
  have hext : ¬((128 ||| op.toNat) &&& 112 > 0) := by cases op <;> decide
  have hdec : decodeOp ((128 ||| op.toNat) &&& 15) = some op := by cases op <;> decide
  have hfin : ((128 ||| op.toNat) &&& 128 != 0) = true := by cases op <;> decide
  unfold FrameHeader.try_from_bytes
  rw [if_neg (by simp)]
  simp only [List.getD_cons_zero, List.getD_cons_succ]
  rw [if_neg hext, hdec]
  simp only [hfin, Bool.not_true, Bool.false_and, Bool.false_eq_true, if_false]
  rw [if_pos (by decide), if_neg (by simp)]
  unfold finishHeader
  rw [if_neg hsafe]
  rw [if_pos (by decide), if_neg (by simp)]
  simp

theorem parse_ext64_none (op : OpCode) (x0 x1 x2 x3 x4 x5 x6 x7 : Nat)
    (tail : List Nat)
    (hsafe : ¬(u64_from_be x0 x1 x2 x3 x4 x5 x6 x7 > 125 ∧ op.is_control = true)) :
    FrameHeader.try_from_bytes
        ((128 ||| op.toNat) :: (0 ||| 127) :: x0 :: x1 :: x2 :: x3 :: x4 :: x5 ::
          x6 :: x7 :: tail) =
      .ok (.ok ⟨true, none, op, 10, u64_from_be x0 x1 x2 x3 x4 x5 x6 x7⟩) := by
  have hext : ¬((128 ||| op.toNat) &&& 112 > 0) := by cases op <;> decide
  have hdec : decodeOp ((128 ||| op.toNat) &&& 15) = some op := by cases op <;> decide
  have hfin : ((128 ||| op.toNat) &&& 128 != 0) = true := by cases op <;> decide
  unfold FrameHeader.try_from_bytes
  rw [if_neg (by simp)]
  simp only [List.getD_cons_zero, List.getD_cons_succ]
  rw [if_neg hext, hdec]
  simp only [hfin, Bool.not_true, Bool.false_and, Bool.false_eq_true, if_false]
  rw [if_neg (by decide), if_pos (by decide), if_neg (by simp)]
  unfold finishHeader
  rw [if_neg hsafe]
  rw [if_neg (by decide)]

theorem parse_ext64_some (op : OpCode) (x0 x1 x2 x3 x4 x5 x6 x7 a b c d : Nat)
    (tail : List Nat)
    (hsafe : ¬(u64_from_be x0 x1 x2 x3 x4 x5 x6 x7 > 125 ∧ op.is_control = true)) :
    FrameHeader.try_from_bytes
        ((128 ||| op.toNat) :: (128 ||| 127) :: x0 :: x1 :: x2 :: x3 :: x4 :: x5 ::
          x6 :: x7 :: a :: b :: c :: d :: tail) =
      .ok (.ok ⟨true, some [a, b, c, d], op, 14,
        u64_from_be x0 x1 x2 x3 x4 x5 x6 x7⟩) := by
  have hext : ¬((128 ||| op.toNat) &&& 112 > 0) := by cases op <;> decide
  have hdec : decodeOp ((128 ||| op.toNat) &&& 15) = some op := by cases op <;> decide
  have hfin : ((128 ||| op.toNat) &&& 128 != 0) = true := by cases op <;> decide
  unfold FrameHeader.try_from_bytes
  rw [if_neg (by simp)]
  simp only [List.getD_cons_zero, List.getD_cons_succ]
  rw [if_neg hext, hdec]
  simp only [hfin, Bool.not_true, Bool.false_and, Bool.false_eq_true, if_false]
  rw [if_neg (by decide), if_pos (by decide), if_neg (by simp)]
  unfold finishHeader
  rw [if_neg hsafe]
  rw [if_pos (by decide), if_neg (by simp)]
  simp

theorem mask_roundtrip (a b c d p q : Nat) (P : List Nat)
    (ha : a < 256) (hb : b < 256) (hc : c < 256) (hd : d < 256)
    (hp : p < 4) (hq : q < 4) (hP : ∀ x ∈ P, x < 256) :
    mask_bytes (some [a, b, c, d]) q (mask_bytes (some [a, b, c, d]) p P) = P := by
  by_cases hz : ([a, b, c, d] : List Nat) = [0, 0, 0, 0]
  · simp [mask_bytes, maskBytesSome, hz]
  · have h1 := (mask_bytes_naive_helper a b c d p P ha hb hc hd hp hP).1
    rw [h1]
    have h2 := (mask_bytes_naive_helper a b c d q
      (naiveMaskFrom [a, b, c, d] 0 P) ha hb hc hd hq
      (naiveMaskFrom_mem_lt a b c d ha hb hc hd P hP 0)).1
    rw [h2, naiveMaskFrom_involutive]

/-- Predicate on the optional mask argument of `create_frame`: absent, or a
list of exactly four bytes (`[u8; 4]` in the source). -/
def maskOk : Option (List Nat) → Prop
  | none => True
  | some m => ∃ a b c d, m = [a, b, c, d] ∧ a < 256 ∧ b < 256 ∧ c < 256 ∧ d < 256

theorem u16_be_roundtrip (len : Nat) (h : len < 65535) :
    u16_from_be (len % 65536 / 256) (len % 256) = len := by
  unfold u16_from_be
  omega

theorem u64_be_roundtrip (len : Nat) (h : len ≤ 70000) :
    u64_from_be (len / 72057594037927936 % 256) (len / 281474976710656 % 256)
      (len / 1099511627776 % 256) (len / 4294967296 % 256) (len / 16777216 % 256)
      (len / 65536 % 256) (len / 256 % 256) (len % 256) = len := by
  unfold u64_from_be
  omega

/-- C1: frame round-trip.  For every payload `P` of at most 70000 bytes,
every opcode (payloads of control opcodes at most 125 bytes) and every
optional 4-byte mask, `create_frame` succeeds, `FrameHeader::try_from_bytes`
on the resulting bytes returns a complete header with `fin = true`, that
frametype, that mask and `payload_len = |P|`, and unmasking the bytes after
`header_len` with the header's mask (for any alignment splits `p, q < 4`)
reproduces `P` exactly. -/
theorem c1_frame_round_trip (mask : Option (List Nat)) (P : List Nat) (op : OpCode)
    (p q : Nat) (hm : maskOk mask) (hP : ∀ b ∈ P, b < 256)
    (hlen : P.length ≤ 70000) (hctl : op.is_control = true → P.length ≤ 125)
    (hp : p < 4) (hq : q < 4) :
    ∃ fr h, create_frame mask P op p = .ok fr ∧
      FrameHeader.try_from_bytes fr = .ok (.ok h) ∧
      h.fin = true ∧ h.frametype = op ∧ h.mask = mask ∧ h.payload_len = P.length ∧
      mask_bytes mask q (fr.drop h.header_len) = P := by
  have hnc : ¬(op.toNat &&& 8 > 0 ∧ P.length > 125) := by
    rintro ⟨hc, hl⟩
    have h1 : op.is_control = true := decide_eq_true hc
    have := hctl h1
    omega
  have hok : create_frame mask P op p =
      .ok ((128 ||| op.toNat) :: lenBytes (maskBit mask) P.length ++
        maskListOf mask ++ mask_bytes mask p P) := by
    unfold create_frame
    rw [if_neg hnc]
  rcases mask with _ | m
  · by_cases h126 : P.length < 126
    · have hlb : lenBytes (maskBit none) P.length = [0 ||| P.length] := by
        unfold lenBytes maskBit
        simp [h126]
      have hshape : (128 ||| op.toNat) :: lenBytes (maskBit none) P.length ++
          maskListOf none ++ mask_bytes none p P =
          (128 ||| op.toNat) :: (0 ||| P.length) :: P := by
        rw [hlb]
        simp [maskListOf, mask_bytes]
      refine ⟨_, ⟨true, none, op, 2, P.length⟩, hok, ?_, rfl, rfl, rfl, rfl, ?_⟩
      · rw [hshape, parse_lit_none op P.length P h126]
      · rw [hshape]
        simp [mask_bytes]
    · by_cases h65535 : P.length < 65535
      · have hval : u16_from_be (P.length % 65536 / 256) (P.length % 256) =
            P.length := u16_be_roundtrip P.length h65535
        have hsafe : ¬(u16_from_be (P.length % 65536 / 256) (P.length % 256) > 125 ∧
            op.is_control = true) := by
          rintro ⟨h1, h2⟩
          have := hctl h2
          omega
        have hlb : lenBytes (maskBit none) P.length =
            (0 ||| 126) :: [P.length % 65536 / 256, P.length % 256] := by
          unfold lenBytes maskBit u16_be
          simp [h126, h65535]
        have hshape : (128 ||| op.toNat) :: lenBytes (maskBit none) P.length ++
            maskListOf none ++ mask_bytes none p P =
            (128 ||| op.toNat) :: (0 ||| 126) :: (P.length % 65536 / 256) ::
              (P.length % 256) :: P := by
          rw [hlb]
          simp [maskListOf, mask_bytes]
        have hparse := parse_ext16_none op (P.length % 65536 / 256) (P.length % 256)
          P hsafe
        rw [hval] at hparse
        refine ⟨_, ⟨true, none, op, 4, P.length⟩, hok, ?_, rfl, rfl, rfl, rfl, ?_⟩
        · rw [hshape, hparse]
        · rw [hshape]
          simp [mask_bytes]
      · have hval := u64_be_roundtrip P.length hlen
        have hsafe : ¬(u64_from_be (P.length / 72057594037927936 % 256)
            (P.length / 281474976710656 % 256) (P.length / 1099511627776 % 256)
            (P.length / 4294967296 % 256) (P.length / 16777216 % 256)
            (P.length / 65536 % 256) (P.length / 256 % 256) (P.length % 256) > 125 ∧
            op.is_control = true) := by
          rintro ⟨h1, h2⟩
          have := hctl h2
          omega
        have hlb : lenBytes (maskBit none) P.length =
            (0 ||| 127) :: u64_be P.length := by
          unfold lenBytes maskBit
          simp [h126, h65535]
        have hshape : (128 ||| op.toNat) :: lenBytes (maskBit none) P.length ++
            maskListOf none ++ mask_bytes none p P =
            (128 ||| op.toNat) :: (0 ||| 127) :: (P.length / 72057594037927936 % 256) ::
              (P.length / 281474976710656 % 256) :: (P.length / 1099511627776 % 256) ::
              (P.length / 4294967296 % 256) :: (P.length / 16777216 % 256) ::
              (P.length / 65536 % 256) :: (P.length / 256 % 256) :: (P.length % 256) ::
              P := by
          rw [hlb]
          unfold u64_be
          simp [maskListOf, mask_bytes]
        have hparse := parse_ext64_none op (P.length / 72057594037927936 % 256)
          (P.length / 281474976710656 % 256) (P.length / 1099511627776 % 256)
          (P.length / 4294967296 % 256) (P.length / 16777216 % 256)
          (P.length / 65536 % 256) (P.length / 256 % 256) (P.length % 256) P hsafe
        rw [hval] at hparse
        refine ⟨_, ⟨true, none, op, 10, P.length⟩, hok, ?_, rfl, rfl, rfl, rfl, ?_⟩
        · rw [hshape, hparse]
        · rw [hshape]
          simp [mask_bytes]
  · obtain ⟨a, b, c, d, rfl, ha, hb, hc, hd⟩ := hm
    have hrt : mask_bytes (some [a, b, c, d]) q
        (mask_bytes (some [a, b, c, d]) p P) = P :=
      mask_roundtrip a b c d p q P ha hb hc hd hp hq hP
    by_cases h126 : P.length < 126
    · have hlb : lenBytes (maskBit (some [a, b, c, d])) P.length =
          [128 ||| P.length] := by
        unfold lenBytes maskBit
        simp [h126]
      have hshape : (128 ||| op.toNat) ::
          lenBytes (maskBit (some [a, b, c, d])) P.length ++
          maskListOf (some [a, b, c, d]) ++ mask_bytes (some [a, b, c, d]) p P =
          (128 ||| op.toNat) :: (128 ||| P.length) :: a :: b :: c :: d ::
            mask_bytes (some [a, b, c, d]) p P := by
        rw [hlb]
        simp [maskListOf]
      refine ⟨_, ⟨true, some [a, b, c, d], op, 6, P.length⟩, hok, ?_, rfl, rfl, rfl,
        rfl, ?_⟩
      · rw [hshape, parse_lit_some op P.length a b c d _ h126]
      · rw [hshape]
        simp only [List.drop_succ_cons, List.drop_zero]
        exact hrt
    · by_cases h65535 : P.length < 65535
      · have hval : u16_from_be (P.length % 65536 / 256) (P.length % 256) =
            P.length := u16_be_roundtrip P.length h65535
        have hsafe : ¬(u16_from_be (P.length % 65536 / 256) (P.length % 256) > 125 ∧
            op.is_control = true) := by
          rintro ⟨h1, h2⟩
          have := hctl h2
          omega
        have hlb : lenBytes (maskBit (some [a, b, c, d])) P.length =
            (128 ||| 126) :: [P.length % 65536 / 256, P.length % 256] := by
          unfold lenBytes maskBit u16_be
          simp [h126, h65535]
        have hshape : (128 ||| op.toNat) ::
            lenBytes (maskBit (some [a, b, c, d])) P.length ++
            maskListOf (some [a, b, c, d]) ++ mask_bytes (some [a, b, c, d]) p P =
            (128 ||| op.toNat) :: (128 ||| 126) :: (P.length % 65536 / 256) ::
              (P.length % 256) :: a :: b :: c :: d ::
              mask_bytes (some [a, b, c, d]) p P := by
          rw [hlb]
          simp [maskListOf]
        have hparse := parse_ext16_some op (P.length % 65536 / 256) (P.length % 256)
          a b c d (mask_bytes (some [a, b, c, d]) p P) hsafe
        rw [hval] at hparse
        refine ⟨_, ⟨true, some [a, b, c, d], op, 8, P.length⟩, hok, ?_, rfl, rfl,
          rfl, rfl, ?_⟩
        · rw [hshape, hparse]
        · rw [hshape]
          simp only [List.drop_succ_cons, List.drop_zero]
          exact hrt
      · have hval := u64_be_roundtrip P.length hlen
        have hsafe : ¬(u64_from_be (P.length / 72057594037927936 % 256)
            (P.length / 281474976710656 % 256) (P.length / 1099511627776 % 256)
            (P.length / 4294967296 % 256) (P.length / 16777216 % 256)
            (P.length / 65536 % 256) (P.length / 256 % 256) (P.length % 256) > 125 ∧
            op.is_control = true) := by
          rintro ⟨h1, h2⟩
          have := hctl h2
          omega
        have hlb : lenBytes (maskBit (some [a, b, c, d])) P.length =
            (128 ||| 127) :: u64_be P.length := by
          unfold lenBytes maskBit
          simp [h126, h65535]
        have hshape : (128 ||| op.toNat) ::
            lenBytes (maskBit (some [a, b, c, d])) P.length ++
            maskListOf (some [a, b, c, d]) ++ mask_bytes (some [a, b, c, d]) p P =
            (128 ||| op.toNat) :: (128 ||| 127) ::
              (P.length / 72057594037927936 % 256) ::
              (P.length / 281474976710656 % 256) :: (P.length / 1099511627776 % 256) ::
              (P.length / 4294967296 % 256) :: (P.length / 16777216 % 256) ::
              (P.length / 65536 % 256) :: (P.length / 256 % 256) :: (P.length % 256) ::
              a :: b :: c :: d :: mask_bytes (some [a, b, c, d]) p P := by
          rw [hlb]
          unfold u64_be
          simp [maskListOf]
        have hparse := parse_ext64_some op (P.length / 72057594037927936 % 256)
          (P.length / 281474976710656 % 256) (P.length / 1099511627776 % 256)
          (P.length / 4294967296 % 256) (P.length / 16777216 % 256)
          (P.length / 65536 % 256) (P.length / 256 % 256) (P.length % 256)
          a b c d (mask_bytes (some [a, b, c, d]) p P) hsafe
        rw [hval] at hparse
        refine ⟨_, ⟨true, some [a, b, c, d], op, 14, P.length⟩, hok, ?_, rfl, rfl,
          rfl, rfl, ?_⟩
        · rw [hshape, hparse]
        · rw [hshape]
          simp only [List.drop_succ_cons, List.drop_zero]
          exact hrt

/-- Witness for C1 at a masked 3-byte Text frame. -/
theorem c1_frame_round_trip_witness :
    ∃ fr h, create_frame (some [5, 6, 7, 8]) [1, 2, 3] OpCode.Text 1 = .ok fr ∧
      FrameHeader.try_from_bytes fr = .ok (.ok h) ∧
      h.fin = true ∧ h.frametype = OpCode.Text ∧ h.mask = some [5, 6, 7, 8] ∧
      h.payload_len = 3 ∧
      mask_bytes (some [5, 6, 7, 8]) 2 (fr.drop h.header_len) = [1, 2, 3] :=
  c1_frame_round_trip (some [5, 6, 7, 8]) [1, 2, 3] OpCode.Text 1 2
    ⟨5, 6, 7, 8, rfl, by decide, by decide, by decide, by decide⟩
    (by decide) (by decide) (by decide) (by decide) (by decide)

theorem parse_short (l : List Nat) (h : l.length < 2) :
    FrameHeader.try_from_bytes l = .ok (.error (2 - l.length)) := by
  unfold FrameHeader.try_from_bytes
  rw [if_pos h]

theorem parse_need16 (op : OpCode) (s : Nat) (rest : List Nat)
    (hs : s &&& 127 = 126) (hr : rest.length < 2) :
    FrameHeader.try_from_bytes ((128 ||| op.toNat) :: s :: rest) =
      .ok (.error (2 - rest.length)) := by
  have hext : ¬((128 ||| op.toNat) &&& 112 > 0) := by cases op <;> decide
  have hdec : decodeOp ((128 ||| op.toNat) &&& 15) = some op := by cases op <;> decide
  have hfin : ((128 ||| op.toNat) &&& 128 != 0) = true := by cases op <;> decide
  unfold FrameHeader.try_from_bytes
  rw [if_neg (by simp)]
  simp only [List.getD_cons_zero, List.getD_cons_succ, List.length_cons]
  rw [if_neg hext, hdec]
  simp only [hfin, Bool.not_true, Bool.false_and, Bool.false_eq_true, if_false]
  rw [hs, if_pos rfl, if_pos (by omega)]
  rw [show 4 - (rest.length + 1 + 1) = 2 - rest.length by omega]

theorem parse_need64 (op : OpCode) (s : Nat) (rest : List Nat)
    (hs : s &&& 127 = 127) (hr : rest.length < 8) :
    FrameHeader.try_from_bytes ((128 ||| op.toNat) :: s :: rest) =
      .ok (.error (8 - rest.length)) := by
  have hext : ¬((128 ||| op.toNat) &&& 112 > 0) := by cases op <;> decide
  have hdec : decodeOp ((128 ||| op.toNat) &&& 15) = some op := by cases op <;> decide
  have hfin : ((128 ||| op.toNat) &&& 128 != 0) = true := by cases op <;> decide
  unfold FrameHeader.try_from_bytes
  rw [if_neg (by simp)]
  simp only [List.getD_cons_zero, List.getD_cons_succ, List.length_cons]
  rw [if_neg hext, hdec]
  simp only [hfin, Bool.not_true, Bool.false_and, Bool.false_eq_true, if_false]
  rw [hs, if_neg (by decide), if_pos rfl, if_pos (by omega)]
  rw [show 10 - (rest.length + 1 + 1) = 8 - rest.length by omega]

theorem parse_need_mask_lit (op : OpCode) (len : Nat) (rest : List Nat)
    (hlen : len < 126) (hr : rest.length < 4) :
    FrameHeader.try_from_bytes ((128 ||| op.toNat) :: (128 ||| len) :: rest) =
      .ok (.error (4 - rest.length)) := by
  have hext : ¬((128 ||| op.toNat) &&& 112 > 0) := by cases op <;> decide
  have hdec : decodeOp ((128 ||| op.toNat) &&& 15) = some op := by cases op <;> decide
  have hfin : ((128 ||| op.toNat) &&& 128 != 0) = true := by cases op <;> decide
  have hor : (128 ||| len) &&& 127 = len ∧ (128 ||| len) &&& 128 = 128 :=
    or128_bits len (by omega)
  unfold FrameHeader.try_from_bytes
  rw [if_neg (by simp)]
  simp only [List.getD_cons_zero, List.getD_cons_succ, List.length_cons]
  rw [if_neg hext, hdec]
  simp only [hfin, Bool.not_true, Bool.false_and, Bool.false_eq_true, if_false,
    hor.1, hor.2]
  rw [if_neg (by omega), if_neg (by omega)]
  unfold finishHeader
  rw [if_neg (by rintro ⟨h, _⟩; omega)]
  rw [if_pos (by decide), if_pos (by simp; omega)]
  simp only [List.length_cons, Except.ok.injEq, Except.error.injEq]
  omega

theorem parse_need_mask16 (op : OpCode) (x y : Nat) (rest : List Nat)
    (hsafe : ¬(u16_from_be x y > 125 ∧ op.is_control = true)) (hr : rest.length < 4) :
    FrameHeader.try_from_bytes
        ((128 ||| op.toNat) :: (128 ||| 126) :: x :: y :: rest) =
      .ok (.error (4 - rest.length)) := by
  have hext : ¬((128 ||| op.toNat) &&& 112 > 0) := by cases op <;> decide
  have hdec : decodeOp ((128 ||| op.toNat) &&& 15) = some op := by cases op <;> decide
  have hfin : ((128 ||| op.toNat) &&& 128 != 0) = true := by cases op <;> decide
  unfold FrameHeader.try_from_bytes
  rw [if_neg (by simp)]
  simp only [List.getD_cons_zero, List.getD_cons_succ, List.length_cons]
  rw [if_neg hext, hdec]
  simp only [hfin, Bool.not_true, Bool.false_and, Bool.false_eq_true, if_false]
  rw [if_pos (by decide), if_neg (by omega)]
  unfold finishHeader
  rw [if_neg hsafe]
  rw [if_pos (by decide), if_pos (by simp; omega)]
  simp only [List.length_cons, Except.ok.injEq, Except.error.injEq]
  omega

theorem parse_need_mask64 (op : OpCode) (x0 x1 x2 x3 x4 x5 x6 x7 : Nat)
    (rest : List Nat)
    (hsafe : ¬(u64_from_be x0 x1 x2 x3 x4 x5 x6 x7 > 125 ∧ op.is_control = true))
    (hr : rest.length < 4) :
    FrameHeader.try_from_bytes
        ((128 ||| op.toNat) :: (128 ||| 127) :: x0 :: x1 :: x2 :: x3 :: x4 :: x5 ::
          x6 :: x7 :: rest) =
      .ok (.error (4 - rest.length)) := by
  have hext : ¬((128 ||| op.toNat) &&& 112 > 0) := by cases op <;> decide
  have hdec : decodeOp ((128 ||| op.toNat) &&& 15) = some op := by cases op <;> decide
  have hfin : ((128 ||| op.toNat) &&& 128 != 0) = true := by cases op <;> decide
  unfold FrameHeader.try_from_bytes
  rw [if_neg (by simp)]
  simp only [List.getD_cons_zero, List.getD_cons_succ, List.length_cons]
  rw [if_neg hext, hdec]
  simp only [hfin, Bool.not_true, Bool.false_and, Bool.false_eq_true, if_false]
  rw [if_neg (by decide), if_pos (by decide), if_neg (by omega)]
  unfold finishHeader
  rw [if_neg hsafe]
  rw [if_pos (by decide), if_pos (by simp; omega)]
  simp only [List.length_cons, Except.ok.injEq, Except.error.injEq]
  omega

set_option maxRecDepth 4000 in
/-- C3 counterexample: take the valid complete frame for a masked 126-byte
binary payload.  Its empty header prefix needs `N = 2` more bytes
(`Ok(Err(2))`), but parsing the prefix extended by exactly those 2 bytes
still returns `Ok(Err(2))` — an incomplete result, not the complete header
the claim promises after adding exactly `N` bytes. -/
theorem c3_incremental_parse_counterexample :
    (create_frame (some [1, 2, 3, 4]) (List.replicate 126 0) OpCode.Binary 0).map
        (fun f => (FrameHeader.try_from_bytes (f.take 0),
          FrameHeader.try_from_bytes (f.take (0 + 2)))) =
      .ok (.ok (.error 2), .ok (.error 2)) := by
  decide

/-- C3 (amended): for every complete frame produced by `create_frame` and
every proper prefix of its header bytes, `try_from_bytes` returns
`Ok(Err(N))` with `N > 0` and `k + N` never exceeding the header length;
parsing the prefix extended by exactly those `N` bytes either yields the
complete header or another `Ok(Err(N2))` with `N2 > 0` (the request shrinks
stage by stage), and the full header parses completely.  (The original
claim — that adding exactly `N` bytes always completes the header — fails
for multi-stage headers.) -/
theorem c3_incremental_header_parse (mask : Option (List Nat)) (P : List Nat)
    (op : OpCode) (p : Nat) (hm : maskOk mask) (hP : ∀ b ∈ P, b < 256)
    (hlen : P.length ≤ 70000) (hctl : op.is_control = true → P.length ≤ 125)
    (hp : p < 4) :
    ∃ fr hdr, create_frame mask P op p = .ok fr ∧
      FrameHeader.try_from_bytes (fr.take hdr.header_len) = .ok (.ok hdr) ∧
      ∀ k < hdr.header_len, ∃ N, 0 < N ∧
        FrameHeader.try_from_bytes (fr.take k) = .ok (.error N) ∧
        k + N ≤ hdr.header_len ∧
        (k + N = hdr.header_len ∨ ∃ N2, 0 < N2 ∧
          FrameHeader.try_from_bytes (fr.take (k + N)) = .ok (.error N2)) := by
  have hnc : ¬(op.toNat &&& 8 > 0 ∧ P.length > 125) := by
    rintro ⟨hc, hl⟩
    have h1 : op.is_control = true := decide_eq_true hc
    have := hctl h1
    omega
  have hok : create_frame mask P op p =
      .ok ((128 ||| op.toNat) :: lenBytes (maskBit mask) P.length ++
        maskListOf mask ++ mask_bytes mask p P) := by
    unfold create_frame
    rw [if_neg hnc]
  have hshort0 : ∀ l : List Nat, FrameHeader.try_from_bytes (l.take 0) =
      .ok (.error 2) := by
    intro l
    rw [List.take_zero]
    exact parse_short [] (by decide)
  have hshort1 : ∀ (x : Nat) (l : List Nat),
      FrameHeader.try_from_bytes ((x :: l).take 1) = .ok (.error 1) := by
    intro x l
    rw [show (x :: l).take 1 = [x] from by simp]
    exact parse_short [x] (by simp)
  rcases mask with _ | m
  · by_cases h126 : P.length < 126
    · have hshape : (128 ||| op.toNat) :: lenBytes (maskBit none) P.length ++
          maskListOf none ++ mask_bytes none p P =
          (128 ||| op.toNat) :: (0 ||| P.length) :: P := by
        unfold lenBytes maskBit
        simp [h126, maskListOf, mask_bytes]
      rw [hshape] at hok
      have hfull : FrameHeader.try_from_bytes
          (((128 ||| op.toNat) :: (0 ||| P.length) :: P).take 2) =
          .ok (.ok ⟨true, none, op, 2, P.length⟩) := by
        exact parse_lit_none op P.length [] h126
      have hAll : ∀ k < 2, ∃ N, 0 < N ∧
          FrameHeader.try_from_bytes
            (((128 ||| op.toNat) :: (0 ||| P.length) :: P).take k) =
            .ok (.error N) ∧ k + N ≤ 2 ∧
          (k + N = 2 ∨ ∃ N2, 0 < N2 ∧ FrameHeader.try_from_bytes
            (((128 ||| op.toNat) :: (0 ||| P.length) :: P).take (k + N)) =
            .ok (.error N2)) := by
        intro k hk
        interval_cases k
        · exact ⟨2, by decide, hshort0 _, by decide, Or.inl rfl⟩
        · exact ⟨1, by decide, hshort1 _ _, by decide, Or.inl rfl⟩
      exact ⟨_, ⟨true, none, op, 2, P.length⟩, hok, hfull, hAll⟩
    · by_cases h65535 : P.length < 65535
      · have hval : u16_from_be (P.length % 65536 / 256) (P.length % 256) =
            P.length := u16_be_roundtrip P.length h65535
        have hsafe : ¬(u16_from_be (P.length % 65536 / 256) (P.length % 256) > 125 ∧
            op.is_control = true) := by
          rintro ⟨h1, h2⟩
          have := hctl h2
          omega
        have hshape : (128 ||| op.toNat) :: lenBytes (maskBit none) P.length ++
            maskListOf none ++ mask_bytes none p P =
            (128 ||| op.toNat) :: (0 ||| 126) :: (P.length % 65536 / 256) ::
              (P.length % 256) :: P := by
          unfold lenBytes maskBit u16_be
          simp [h126, h65535, maskListOf, mask_bytes]
        rw [hshape] at hok
        have hb2 : FrameHeader.try_from_bytes
            (((128 ||| op.toNat) :: (0 ||| 126) :: (P.length % 65536 / 256) ::
              (P.length % 256) :: P).take 2) = .ok (.error 2) := by
          exact parse_need16 op (0 ||| 126) [] (by decide) (by decide)
        have hfull : FrameHeader.try_from_bytes
            (((128 ||| op.toNat) :: (0 ||| 126) :: (P.length % 65536 / 256) ::
              (P.length % 256) :: P).take 4) =
            .ok (.ok ⟨true, none, op, 4, P.length⟩) := by
          have hparse := parse_ext16_none op (P.length % 65536 / 256) (P.length % 256)
            [] hsafe
          rw [hval] at hparse
          exact hparse
        have hAll : ∀ k < 4, ∃ N, 0 < N ∧
            FrameHeader.try_from_bytes
              (((128 ||| op.toNat) :: (0 ||| 126) :: (P.length % 65536 / 256) ::
                (P.length % 256) :: P).take k) = .ok (.error N) ∧ k + N ≤ 4 ∧
            (k + N = 4 ∨ ∃ N2, 0 < N2 ∧ FrameHeader.try_from_bytes
              (((128 ||| op.toNat) :: (0 ||| 126) :: (P.length % 65536 / 256) ::
                (P.length % 256) :: P).take (k + N)) = .ok (.error N2)) := by
          intro k hk
          interval_cases k
          · exact ⟨2, by decide, hshort0 _, by decide, Or.inr ⟨2, by decide, hb2⟩⟩
          · exact ⟨1, by decide, hshort1 _ _, by decide, Or.inr ⟨2, by decide, hb2⟩⟩
          · exact ⟨2, by decide, hb2, by decide, Or.inl rfl⟩
          · refine ⟨1, by decide, ?_, by decide, Or.inl rfl⟩
            exact parse_need16 op (0 ||| 126) [P.length % 65536 / 256] (by decide)
              (by simp)
        exact ⟨_, ⟨true, none, op, 4, P.length⟩, hok, hfull, hAll⟩
      · have hval := u64_be_roundtrip P.length hlen
        have hsafe : ¬(u64_from_be (P.length / 72057594037927936 % 256)
            (P.length / 281474976710656 % 256) (P.length / 1099511627776 % 256)
            (P.length / 4294967296 % 256) (P.length / 16777216 % 256)
            (P.length / 65536 % 256) (P.length / 256 % 256) (P.length % 256) > 125 ∧
            op.is_control = true) := by
          rintro ⟨h1, h2⟩
          have := hctl h2
          omega
        have hshape : (128 ||| op.toNat) :: lenBytes (maskBit none) P.length ++
            maskListOf none ++ mask_bytes none p P =
            (128 ||| op.toNat) :: (0 ||| 127) ::
              (P.length / 72057594037927936 % 256) ::
              (P.length / 281474976710656 % 256) ::
              (P.length / 1099511627776 % 256) ::
              (P.length / 4294967296 % 256) :: (P.length / 16777216 % 256) ::
              (P.length / 65536 % 256) :: (P.length / 256 % 256) ::
              (P.length % 256) :: P := by
          unfold lenBytes maskBit u64_be
          simp [h126, h65535, maskListOf, mask_bytes]
        rw [hshape] at hok
        have hneed : ∀ rest : List Nat, rest.length < 8 →
            FrameHeader.try_from_bytes ((128 ||| op.toNat) :: (0 ||| 127) :: rest) =
              .ok (.error (8 - rest.length)) :=
          fun rest hr => parse_need64 op (0 ||| 127) rest (by decide) hr
        have hb2 : FrameHeader.try_from_bytes
            (((128 ||| op.toNat) :: (0 ||| 127) ::
              (P.length / 72057594037927936 % 256) ::
              (P.length / 281474976710656 % 256) ::
              (P.length / 1099511627776 % 256) ::
              (P.length / 4294967296 % 256) :: (P.length / 16777216 % 256) ::
              (P.length / 65536 % 256) :: (P.length / 256 % 256) ::
              (P.length % 256) :: P).take 2) = .ok (.error 8) := by
          exact hneed [] (by decide)
        have hfull : FrameHeader.try_from_bytes
            (((128 ||| op.toNat) :: (0 ||| 127) ::
              (P.length / 72057594037927936 % 256) ::
              (P.length / 281474976710656 % 256) ::
              (P.length / 1099511627776 % 256) ::
              (P.length / 4294967296 % 256) :: (P.length / 16777216 % 256) ::
              (P.length / 65536 % 256) :: (P.length / 256 % 256) ::
              (P.length % 256) :: P).take 10) =
            .ok (.ok ⟨true, none, op, 10, P.length⟩) := by
          have hparse := parse_ext64_none op (P.length / 72057594037927936 % 256)
            (P.length / 281474976710656 % 256) (P.length / 1099511627776 % 256)
            (P.length / 4294967296 % 256) (P.length / 16777216 % 256)
            (P.length / 65536 % 256) (P.length / 256 % 256) (P.length % 256) [] hsafe
          rw [hval] at hparse
          exact hparse
        have hAll : ∀ k < 10, ∃ N, 0 < N ∧
            FrameHeader.try_from_bytes
              (((128 ||| op.toNat) :: (0 ||| 127) ::
                (P.length / 72057594037927936 % 256) ::
                (P.length / 281474976710656 % 256) ::
                (P.length / 1099511627776 % 256) ::
                (P.length / 4294967296 % 256) :: (P.length / 16777216 % 256) ::
                (P.length / 65536 % 256) :: (P.length / 256 % 256) ::
                (P.length % 256) :: P).take k) = .ok (.error N) ∧ k + N ≤ 10 ∧
            (k + N = 10 ∨ ∃ N2, 0 < N2 ∧ FrameHeader.try_from_bytes
              (((128 ||| op.toNat) :: (0 ||| 127) ::
                (P.length / 72057594037927936 % 256) ::
                (P.length / 281474976710656 % 256) ::
                (P.length / 1099511627776 % 256) ::
                (P.length / 4294967296 % 256) :: (P.length / 16777216 % 256) ::
                (P.length / 65536 % 256) :: (P.length / 256 % 256) ::
                (P.length % 256) :: P).take (k + N)) = .ok (.error N2)) := by
          intro k hk
          interval_cases k
          · exact ⟨2, by decide, hshort0 _, by decide, Or.inr ⟨8, by decide, hb2⟩⟩
          · exact ⟨1, by decide, hshort1 _ _, by decide, Or.inr ⟨8, by decide, hb2⟩⟩
          · exact ⟨8, by decide, hb2, by decide, Or.inl rfl⟩
          · refine ⟨7, by decide, ?_, by decide, Or.inl rfl⟩
            exact (hneed [P.length / 72057594037927936 % 256] (by simp))
          · refine ⟨6, by decide, ?_, by decide, Or.inl rfl⟩
            exact (hneed [P.length / 72057594037927936 % 256,
                P.length / 281474976710656 % 256] (by simp))
          · refine ⟨5, by decide, ?_, by decide, Or.inl rfl⟩
            exact (hneed [P.length / 72057594037927936 % 256,
                P.length / 281474976710656 % 256,
                P.length / 1099511627776 % 256] (by simp))
          · refine ⟨4, by decide, ?_, by decide, Or.inl rfl⟩
            exact (hneed [P.length / 72057594037927936 % 256,
                P.length / 281474976710656 % 256, P.length / 1099511627776 % 256,
                P.length / 4294967296 % 256] (by simp))
          · refine ⟨3, by decide, ?_, by decide, Or.inl rfl⟩
            exact (hneed [P.length / 72057594037927936 % 256,
                P.length / 281474976710656 % 256, P.length / 1099511627776 % 256,
                P.length / 4294967296 % 256, P.length / 16777216 % 256] (by simp))
          · refine ⟨2, by decide, ?_, by decide, Or.inl rfl⟩
            exact (hneed [P.length / 72057594037927936 % 256,
                P.length / 281474976710656 % 256, P.length / 1099511627776 % 256,
                P.length / 4294967296 % 256, P.length / 16777216 % 256,
                P.length / 65536 % 256] (by simp))
          · refine ⟨1, by decide, ?_, by decide, Or.inl rfl⟩
            exact (hneed [P.length / 72057594037927936 % 256,
                P.length / 281474976710656 % 256, P.length / 1099511627776 % 256,
                P.length / 4294967296 % 256, P.length / 16777216 % 256,
                P.length / 65536 % 256, P.length / 256 % 256] (by simp))
        exact ⟨_, ⟨true, none, op, 10, P.length⟩, hok, hfull, hAll⟩
  · obtain ⟨a, b, c, d, rfl, ha, hb, hc, hd⟩ := hm
    by_cases h126 : P.length < 126
    · have hshape : (128 ||| op.toNat) ::
          lenBytes (maskBit (some [a, b, c, d])) P.length ++
          maskListOf (some [a, b, c, d]) ++ mask_bytes (some [a, b, c, d]) p P =
          (128 ||| op.toNat) :: (128 ||| P.length) :: a :: b :: c :: d ::
            mask_bytes (some [a, b, c, d]) p P := by
        unfold lenBytes maskBit
        simp [h126, maskListOf]
      rw [hshape] at hok
      have hneedm : ∀ rest : List Nat, rest.length < 4 →
          FrameHeader.try_from_bytes
            ((128 ||| op.toNat) :: (128 ||| P.length) :: rest) =
            .ok (.error (4 - rest.length)) :=
        fun rest hr => parse_need_mask_lit op P.length rest h126 hr
      have hb2 : FrameHeader.try_from_bytes
          (((128 ||| op.toNat) :: (128 ||| P.length) :: a :: b :: c :: d ::
            mask_bytes (some [a, b, c, d]) p P).take 2) = .ok (.error 4) := by
        exact hneedm [] (by decide)
      have hfull : FrameHeader.try_from_bytes
          (((128 ||| op.toNat) :: (128 ||| P.length) :: a :: b :: c :: d ::
            mask_bytes (some [a, b, c, d]) p P).take 6) =
          .ok (.ok ⟨true, some [a, b, c, d], op, 6, P.length⟩) := by
        exact parse_lit_some op P.length a b c d [] h126
      have hAll : ∀ k < 6, ∃ N, 0 < N ∧
          FrameHeader.try_from_bytes
            (((128 ||| op.toNat) :: (128 ||| P.length) :: a :: b :: c :: d ::
              mask_bytes (some [a, b, c, d]) p P).take k) = .ok (.error N) ∧
          k + N ≤ 6 ∧
          (k + N = 6 ∨ ∃ N2, 0 < N2 ∧ FrameHeader.try_from_bytes
            (((128 ||| op.toNat) :: (128 ||| P.length) :: a :: b :: c :: d ::
              mask_bytes (some [a, b, c, d]) p P).take (k + N)) =
            .ok (.error N2)) := by
        intro k hk
        interval_cases k
        · exact ⟨2, by decide, hshort0 _, by decide, Or.inr ⟨4, by decide, hb2⟩⟩
        · exact ⟨1, by decide, hshort1 _ _, by decide, Or.inr ⟨4, by decide, hb2⟩⟩
        · exact ⟨4, by decide, hb2, by decide, Or.inl rfl⟩
        · refine ⟨3, by decide, ?_, by decide, Or.inl rfl⟩
          exact (hneedm [a] (by simp))
        · refine ⟨2, by decide, ?_, by decide, Or.inl rfl⟩
          exact (hneedm [a, b] (by simp))
        · refine ⟨1, by decide, ?_, by decide, Or.inl rfl⟩
          exact (hneedm [a, b, c] (by simp))
      exact ⟨_, ⟨true, some [a, b, c, d], op, 6, P.length⟩, hok, hfull, hAll⟩
    · by_cases h65535 : P.length < 65535
      · have hval : u16_from_be (P.length % 65536 / 256) (P.length % 256) =
            P.length := u16_be_roundtrip P.length h65535
        have hsafe : ¬(u16_from_be (P.length % 65536 / 256) (P.length % 256) > 125 ∧
            op.is_control = true) := by
          rintro ⟨h1, h2⟩
          have := hctl h2
          omega
        have hshape : (128 ||| op.toNat) ::
            lenBytes (maskBit (some [a, b, c, d])) P.length ++
            maskListOf (some [a, b, c, d]) ++ mask_bytes (some [a, b, c, d]) p P =
            (128 ||| op.toNat) :: (128 ||| 126) :: (P.length % 65536 / 256) ::
              (P.length % 256) :: a :: b :: c :: d ::
              mask_bytes (some [a, b, c, d]) p P := by
          unfold lenBytes maskBit u16_be
          simp [h126, h65535, maskListOf]
        rw [hshape] at hok
        have hb2 : FrameHeader.try_from_bytes
            (((128 ||| op.toNat) :: (128 ||| 126) :: (P.length % 65536 / 256) ::
              (P.length % 256) :: a :: b :: c :: d ::
              mask_bytes (some [a, b, c, d]) p P).take 2) = .ok (.error 2) := by
          exact parse_need16 op (128 ||| 126) [] (by decide) (by decide)
        have hb4 : FrameHeader.try_from_bytes
            (((128 ||| op.toNat) :: (128 ||| 126) :: (P.length % 65536 / 256) ::
              (P.length % 256) :: a :: b :: c :: d ::
              mask_bytes (some [a, b, c, d]) p P).take 4) = .ok (.error 4) := by
          exact parse_need_mask16 op (P.length % 65536 / 256) (P.length % 256) []
            hsafe (by decide)
        have hfull : FrameHeader.try_from_bytes
            (((128 ||| op.toNat) :: (128 ||| 126) :: (P.length % 65536 / 256) ::
              (P.length % 256) :: a :: b :: c :: d ::
              mask_bytes (some [a, b, c, d]) p P).take 8) =
            .ok (.ok ⟨true, some [a, b, c, d], op, 8, P.length⟩) := by
          have hparse := parse_ext16_some op (P.length % 65536 / 256) (P.length % 256)
            a b c d [] hsafe
          rw [hval] at hparse
          exact hparse
        have hAll : ∀ k < 8, ∃ N, 0 < N ∧
            FrameHeader.try_from_bytes
              (((128 ||| op.toNat) :: (128 ||| 126) :: (P.length % 65536 / 256) ::
                (P.length % 256) :: a :: b :: c :: d ::
                mask_bytes (some [a, b, c, d]) p P).take k) = .ok (.error N) ∧
            k + N ≤ 8 ∧
            (k + N = 8 ∨ ∃ N2, 0 < N2 ∧ FrameHeader.try_from_bytes
              (((128 ||| op.toNat) :: (128 ||| 126) :: (P.length % 65536 / 256) ::
                (P.length % 256) :: a :: b :: c :: d ::
                mask_bytes (some [a, b, c, d]) p P).take (k + N)) =
              .ok (.error N2)) := by
          intro k hk
          interval_cases k
          · exact ⟨2, by decide, hshort0 _, by decide, Or.inr ⟨2, by decide, hb2⟩⟩
          · exact ⟨1, by decide, hshort1 _ _, by decide, Or.inr ⟨2, by decide, hb2⟩⟩
          · exact ⟨2, by decide, hb2, by decide, Or.inr ⟨4, by decide, hb4⟩⟩
          · refine ⟨1, by decide, ?_, by decide, Or.inr ⟨4, by decide, hb4⟩⟩
            exact (parse_need16 op (128 ||| 126) [P.length % 65536 / 256] (by decide)
                (by simp))
          · exact ⟨4, by decide, hb4, by decide, Or.inl rfl⟩
          · refine ⟨3, by decide, ?_, by decide, Or.inl rfl⟩
            exact (parse_need_mask16 op (P.length % 65536 / 256) (P.length % 256) [a]
                hsafe (by simp))
          · refine ⟨2, by decide, ?_, by decide, Or.inl rfl⟩
            exact (parse_need_mask16 op (P.length % 65536 / 256) (P.length % 256) [a, b]
                hsafe (by simp))
          · refine ⟨1, by decide, ?_, by decide, Or.inl rfl⟩
            exact (parse_need_mask16 op (P.length % 65536 / 256) (P.length % 256)
                [a, b, c] hsafe (by simp))
        exact ⟨_, ⟨true, some [a, b, c, d], op, 8, P.length⟩, hok, hfull, hAll⟩
      · have hval := u64_be_roundtrip P.length hlen
        have hsafe : ¬(u64_from_be (P.length / 72057594037927936 % 256)
            (P.length / 281474976710656 % 256) (P.length / 1099511627776 % 256)
            (P.length / 4294967296 % 256) (P.length / 16777216 % 256)
            (P.length / 65536 % 256) (P.length / 256 % 256) (P.length % 256) > 125 ∧
            op.is_control = true) := by
          rintro ⟨h1, h2⟩
          have := hctl h2
          omega
        have hshape : (128 ||| op.toNat) ::
            lenBytes (maskBit (some [a, b, c, d])) P.length ++
            maskListOf (some [a, b, c, d]) ++ mask_bytes (some [a, b, c, d]) p P =
            (128 ||| op.toNat) :: (128 ||| 127) ::
              (P.length / 72057594037927936 % 256) ::
              (P.length / 281474976710656 % 256) ::
              (P.length / 1099511627776 % 256) ::
              (P.length / 4294967296 % 256) :: (P.length / 16777216 % 256) ::
              (P.length / 65536 % 256) :: (P.length / 256 % 256) ::
              (P.length % 256) :: a :: b :: c :: d ::
              mask_bytes (some [a, b, c, d]) p P := by
          unfold lenBytes maskBit u64_be
          simp [h126, h65535, maskListOf]
        rw [hshape] at hok
        have hneed : ∀ rest : List Nat, rest.length < 8 →
            FrameHeader.try_from_bytes ((128 ||| op.toNat) :: (128 ||| 127) :: rest) =
              .ok (.error (8 - rest.length)) :=
          fun rest hr => parse_need64 op (128 ||| 127) rest (by decide) hr
        have hneedm : ∀ rest : List Nat, rest.length < 4 →
            FrameHeader.try_from_bytes
              ((128 ||| op.toNat) :: (128 ||| 127) ::
                (P.length / 72057594037927936 % 256) ::
                (P.length / 281474976710656 % 256) ::
                (P.length / 1099511627776 % 256) ::
                (P.length / 4294967296 % 256) :: (P.length / 16777216 % 256) ::
                (P.length / 65536 % 256) :: (P.length / 256 % 256) ::
                (P.length % 256) :: rest) = .ok (.error (4 - rest.length)) :=
          fun rest hr => parse_need_mask64 op (P.length / 72057594037927936 % 256)
            (P.length / 281474976710656 % 256) (P.length / 1099511627776 % 256)
            (P.length / 4294967296 % 256) (P.length / 16777216 % 256)
            (P.length / 65536 % 256) (P.length / 256 % 256) (P.length % 256)
            rest hsafe hr
        have hb2 : FrameHeader.try_from_bytes
            (((128 ||| op.toNat) :: (128 ||| 127) ::
              (P.length / 72057594037927936 % 256) ::
              (P.length / 281474976710656 % 256) ::
              (P.length / 1099511627776 % 256) ::
              (P.length / 4294967296 % 256) :: (P.length / 16777216 % 256) ::
              (P.length / 65536 % 256) :: (P.length / 256 % 256) ::
              (P.length % 256) :: a :: b :: c :: d ::
              mask_bytes (some [a, b, c, d]) p P).take 2) = .ok (.error 8) := by
          exact hneed [] (by decide)
        have hb10 : FrameHeader.try_from_bytes
            (((128 ||| op.toNat) :: (128 ||| 127) ::
              (P.length / 72057594037927936 % 256) ::
              (P.length / 281474976710656 % 256) ::
              (P.length / 1099511627776 % 256) ::
              (P.length / 4294967296 % 256) :: (P.length / 16777216 % 256) ::
              (P.length / 65536 % 256) :: (P.length / 256 % 256) ::
              (P.length % 256) :: a :: b :: c :: d ::
              mask_bytes (some [a, b, c, d]) p P).take 10) = .ok (.error 4) := by
          exact hneedm [] (by decide)
        have hfull : FrameHeader.try_from_bytes
            (((128 ||| op.toNat) :: (128 ||| 127) ::
              (P.length / 72057594037927936 % 256) ::
              (P.length / 281474976710656 % 256) ::
              (P.length / 1099511627776 % 256) ::
              (P.length / 4294967296 % 256) :: (P.length / 16777216 % 256) ::
              (P.length / 65536 % 256) :: (P.length / 256 % 256) ::
              (P.length % 256) :: a :: b :: c :: d ::
              mask_bytes (some [a, b, c, d]) p P).take 14) =
            .ok (.ok ⟨true, some [a, b, c, d], op, 14, P.length⟩) := by
          have hparse := parse_ext64_some op (P.length / 72057594037927936 % 256)
            (P.length / 281474976710656 % 256) (P.length / 1099511627776 % 256)
            (P.length / 4294967296 % 256) (P.length / 16777216 % 256)
            (P.length / 65536 % 256) (P.length / 256 % 256) (P.length % 256)
            a b c d [] hsafe
          rw [hval] at hparse
          exact hparse
        have hAll : ∀ k < 14, ∃ N, 0 < N ∧
            FrameHeader.try_from_bytes
              (((128 ||| op.toNat) :: (128 ||| 127) ::
                (P.length / 72057594037927936 % 256) ::
                (P.length / 281474976710656 % 256) ::
                (P.length / 1099511627776 % 256) ::
                (P.length / 4294967296 % 256) :: (P.length / 16777216 % 256) ::
                (P.length / 65536 % 256) :: (P.length / 256 % 256) ::
                (P.length % 256) :: a :: b :: c :: d ::
                mask_bytes (some [a, b, c, d]) p P).take k) = .ok (.error N) ∧
            k + N ≤ 14 ∧
            (k + N = 14 ∨ ∃ N2, 0 < N2 ∧ FrameHeader.try_from_bytes
              (((128 ||| op.toNat) :: (128 ||| 127) ::
                (P.length / 72057594037927936 % 256) ::
                (P.length / 281474976710656 % 256) ::
                (P.length / 1099511627776 % 256) ::
                (P.length / 4294967296 % 256) :: (P.length / 16777216 % 256) ::
                (P.length / 65536 % 256) :: (P.length / 256 % 256) ::
                (P.length % 256) :: a :: b :: c :: d ::
                mask_bytes (some [a, b, c, d]) p P).take (k + N)) =
              .ok (.error N2)) := by
          intro k hk
          interval_cases k
          · exact ⟨2, by decide, hshort0 _, by decide, Or.inr ⟨8, by decide, hb2⟩⟩
          · exact ⟨1, by decide, hshort1 _ _, by decide, Or.inr ⟨8, by decide, hb2⟩⟩
          · exact ⟨8, by decide, hb2, by decide, Or.inr ⟨4, by decide, hb10⟩⟩
          · refine ⟨7, by decide, ?_, by decide, Or.inr ⟨4, by decide, hb10⟩⟩
            exact (hneed [P.length / 72057594037927936 % 256] (by simp))
          · refine ⟨6, by decide, ?_, by decide, Or.inr ⟨4, by decide, hb10⟩⟩
            exact (hneed [P.length / 72057594037927936 % 256,
                P.length / 281474976710656 % 256] (by simp))
          · refine ⟨5, by decide, ?_, by decide, Or.inr ⟨4, by decide, hb10⟩⟩
            exact (hneed [P.length / 72057594037927936 % 256,
                P.length / 281474976710656 % 256,
                P.length / 1099511627776 % 256] (by simp))
          · refine ⟨4, by decide, ?_, by decide, Or.inr ⟨4, by decide, hb10⟩⟩
            exact (hneed [P.length / 72057594037927936 % 256,
                P.length / 281474976710656 % 256, P.length / 1099511627776 % 256,
                P.length / 4294967296 % 256] (by simp))
          · refine ⟨3, by decide, ?_, by decide, Or.inr ⟨4, by decide, hb10⟩⟩
            exact (hneed [P.length / 72057594037927936 % 256,
                P.length / 281474976710656 % 256, P.length / 1099511627776 % 256,
                P.length / 4294967296 % 256, P.length / 16777216 % 256] (by simp))
          · refine ⟨2, by decide, ?_, by decide, Or.inr ⟨4, by decide, hb10⟩⟩
            exact (hneed [P.length / 72057594037927936 % 256,
                P.length / 281474976710656 % 256, P.length / 1099511627776 % 256,
                P.length / 4294967296 % 256, P.length / 16777216 % 256,
                P.length / 65536 % 256] (by simp))
          · refine ⟨1, by decide, ?_, by decide, Or.inr ⟨4, by decide, hb10⟩⟩
            exact (hneed [P.length / 72057594037927936 % 256,
                P.length / 281474976710656 % 256, P.length / 1099511627776 % 256,
                P.length / 4294967296 % 256, P.length / 16777216 % 256,
                P.length / 65536 % 256, P.length / 256 % 256] (by simp))
          · exact ⟨4, by decide, hb10, by decide, Or.inl rfl⟩
          · refine ⟨3, by decide, ?_, by decide, Or.inl rfl⟩
            exact (hneedm [a] (by simp))
          · refine ⟨2, by decide, ?_, by decide, Or.inl rfl⟩
            exact (hneedm [a, b] (by simp))
          · refine ⟨1, by decide, ?_, by decide, Or.inl rfl⟩
            exact (hneedm [a, b, c] (by simp))
        exact ⟨_, ⟨true, some [a, b, c, d], op, 14, P.length⟩, hok, hfull, hAll⟩

/-- Witness for the amended C3 statement at a masked 130-byte binary frame
(16-bit length form with mask, header length 8). -/
theorem c3_incremental_header_parse_witness :
    ∃ fr hdr, create_frame (some [1, 2, 3, 4]) (List.replicate 130 5)
        OpCode.Binary 0 = .ok fr ∧
      FrameHeader.try_from_bytes (fr.take hdr.header_len) = .ok (.ok hdr) ∧
      ∀ k < hdr.header_len, ∃ N, 0 < N ∧
        FrameHeader.try_from_bytes (fr.take k) = .ok (.error N) ∧
        k + N ≤ hdr.header_len ∧
        (k + N = hdr.header_len ∨ ∃ N2, 0 < N2 ∧
          FrameHeader.try_from_bytes (fr.take (k + N)) = .ok (.error N2)) :=
  c3_incremental_header_parse (some [1, 2, 3, 4]) (List.replicate 130 5)
    OpCode.Binary 0 ⟨1, 2, 3, 4, rfl, by decide, by decide, by decide, by decide⟩
    (by intro b hb; rw [List.eq_of_mem_replicate hb]; decide)
    (by rw [List.length_replicate]; decide) (by intro h; cases h) (by decide)

/-- Resolved payload length of a header candidate, when enough bytes are
present to resolve it (the claim's "resolved payload_len"): the literal
7-bit length, or the 16- or 64-bit big-endian extension. -/
def resolvedLen (data : List Nat) : Option Nat :=
  if data.getD 1 0 &&& 127 = 126 then
    if data.length < 4 then none
    else some (u16_from_be (data.getD 2 0) (data.getD 3 0))
  else if data.getD 1 0 &&& 127 = 127 then
    if data.length < 10 then none
    else some (u64_from_be (data.getD 2 0) (data.getD 3 0) (data.getD 4 0)
      (data.getD 5 0) (data.getD 6 0) (data.getD 7 0) (data.getD 8 0)
      (data.getD 9 0))
  else some (data.getD 1 0 &&& 127)

/-- The claim's characterization of the inputs (of at least 2 bytes) that
`try_from_bytes` rejects as invalid: reserved bits 4-6 of the first byte
set, opcode nibble outside the six known codes, a control frame with
`fin = 0`, or a control frame whose resolved payload length exceeds 125. -/
def headerRejected (data : List Nat) : Bool :=
  decide (data.getD 0 0 &&& 112 > 0) ||
  (match decodeOp (data.getD 0 0 &&& 15) with
   | none => true
   | some op =>
     op.is_control &&
       (decide (data.getD 0 0 &&& 128 = 0) ||
        (match resolvedLen data with
         | some n => decide (n > 125)
         | none => false)))

/-- `Err`-discriminator for `Except` results. -/
def exceptIsError {ε α : Type} : Except ε α → Bool
  | .error _ => true
  | .ok _ => false

theorem is_control_iff (op : OpCode) : op.is_control = true ↔ op.toNat &&& 8 > 0 := by
  cases op <;> decide

theorem finishHeader_isError (data : List Nat) (fin : Bool) (ft : OpCode)
    (mb : Bool) (pl extra : Nat) :
    exceptIsError (finishHeader data fin ft mb pl extra) =
      (decide (pl > 125) && ft.is_control) := by
  unfold finishHeader
  by_cases h : pl > 125 ∧ ft.is_control
  · rw [if_pos h]
    have h2 : ft.is_control = true := h.2
    simp [exceptIsError, h.1, h2]
  · rw [if_neg h]
    have hr : (decide (pl > 125) && ft.is_control) = false := by
      rcases hb : ft.is_control with _ | _
      · simp
      · have hnp : ¬(pl > 125) := fun hgt => h ⟨hgt, by rw [hb]⟩
        simp [hnp]
    rw [hr]
    by_cases hmb : mb = true
    · rw [if_pos hmb]
      by_cases hl : data.length < 2 + extra + 4
      · rw [if_pos hl]
        rfl
      · rw [if_neg hl]
        rfl
    · rw [if_neg hmb]
      rfl

theorem try_from_bytes_badop (data : List Nat)
    (h2 : ¬(data.length < 2)) (hx : ¬(data.getD 0 0 &&& 112 > 0))
    (hdec : decodeOp (data.getD 0 0 &&& 15) = none) :
    FrameHeader.try_from_bytes data = .error "Unknown OpCode" := by
  unfold FrameHeader.try_from_bytes
  rw [if_neg h2, if_neg hx, hdec]

theorem try_from_bytes_step (data : List Nat) (op2 : OpCode)
    (h2 : ¬(data.length < 2)) (hx : ¬(data.getD 0 0 &&& 112 > 0))
    (hdec : decodeOp (data.getD 0 0 &&& 15) = some op2) :
    FrameHeader.try_from_bytes data =
      (if (!(data.getD 0 0 &&& 128 != 0)) && op2.is_control then
        .error "Control frames cannot be fragmented"
      else if data.getD 1 0 &&& 127 = 126 then
        if data.length < 4 then .ok (.error (4 - data.length))
        else finishHeader data (data.getD 0 0 &&& 128 != 0) op2
          (data.getD 1 0 &&& 128 != 0)
          (u16_from_be (data.getD 2 0) (data.getD 3 0)) 2
      else if data.getD 1 0 &&& 127 = 127 then
        if data.length < 10 then .ok (.error (10 - data.length))
        else finishHeader data (data.getD 0 0 &&& 128 != 0) op2
          (data.getD 1 0 &&& 128 != 0)
          (u64_from_be (data.getD 2 0) (data.getD 3 0) (data.getD 4 0)
            (data.getD 5 0) (data.getD 6 0) (data.getD 7 0) (data.getD 8 0)
            (data.getD 9 0)) 8
      else finishHeader data (data.getD 0 0 &&& 128 != 0) op2
        (data.getD 1 0 &&& 128 != 0) (data.getD 1 0 &&& 127) 0) := by
  unfold FrameHeader.try_from_bytes
  rw [if_neg h2, if_neg hx, hdec]

theorem headerRejected_nonop (data : List Nat)
    (hdec : decodeOp (data.getD 0 0 &&& 15) = none) :
    headerRejected data = true := by
  unfold headerRejected
  rw [hdec]
  simp

theorem headerRejected_some_none (data : List Nat) (op2 : OpCode)
    (hdec : decodeOp (data.getD 0 0 &&& 15) = some op2)
    (hres : resolvedLen data = none) :
    headerRejected data = (decide (data.getD 0 0 &&& 112 > 0) ||
      (op2.is_control && decide (data.getD 0 0 &&& 128 = 0))) := by
  unfold headerRejected
  rw [hdec, hres, Bool.or_false]

theorem headerRejected_some_some (data : List Nat) (op2 : OpCode) (n : Nat)
    (hdec : decodeOp (data.getD 0 0 &&& 15) = some op2)
    (hres : resolvedLen data = some n) :
    headerRejected data = (decide (data.getD 0 0 &&& 112 > 0) ||
      (op2.is_control &&
        (decide (data.getD 0 0 &&& 128 = 0) || decide (n > 125)))) := by
  unfold headerRejected
  rw [hdec, hres]

theorem headerRejected_some_eq (data : List Nat) (op2 : OpCode)
    (hdec : decodeOp (data.getD 0 0 &&& 15) = some op2) :
    headerRejected data = (decide (data.getD 0 0 &&& 112 > 0) ||
      (op2.is_control && (decide (data.getD 0 0 &&& 128 = 0) ||
        (match resolvedLen data with
         | some n => decide (n > 125)
         | none => false)))) := by
  unfold headerRejected
  rw [hdec]

/-- C7: malformed-frame rejection.  For every input of at least two bytes,
`try_from_bytes` errors exactly when the first byte has a reserved bit 4-6
set, the opcode nibble is unknown, or the frame is a control frame that is
fragmented or whose resolved payload length exceeds 125; inputs shorter
than two bytes only yield a byte request; and `create_frame` errors exactly
for a control opcode with more than 125 payload bytes. -/
theorem c7_malformed_rejection (data : List Nat) (mask : Option (List Nat))
    (P : List Nat) (op : OpCode) (p : Nat) :
    (2 ≤ data.length →
      (exceptIsError (FrameHeader.try_from_bytes data) = true ↔
        headerRejected data = true)) ∧
    (data.length < 2 →
      FrameHeader.try_from_bytes data = .ok (.error (2 - data.length))) ∧
    (exceptIsError (create_frame mask P op p) = true ↔
      op.is_control = true ∧ 125 < P.length) := by
  refine ⟨?_, fun h => parse_short data h, ?_⟩
  · intro hlen2
    have h2 : ¬(data.length < 2) := by omega
    by_cases hx : data.getD 0 0 &&& 112 > 0
    · have hstep : FrameHeader.try_from_bytes data =
          .error "Extensions not supported" := by
        unfold FrameHeader.try_from_bytes
        rw [if_neg h2, if_pos hx]
      rw [hstep]
      unfold headerRejected
      rw [decide_eq_true hx]
      simp [exceptIsError]
    · rcases hdec : decodeOp (data.getD 0 0 &&& 15) with _ | op2
      · rw [try_from_bytes_badop data h2 hx hdec, headerRejected_nonop data hdec]
        simp [exceptIsError]
      · rw [try_from_bytes_step data op2 h2 hx hdec]
        by_cases hfr : ((!(data.getD 0 0 &&& 128 != 0)) && op2.is_control) = true
        · rw [if_pos hfr]
          have h1 : op2.is_control = true := by
            rcases hb : op2.is_control with _ | _
            · rw [hb, Bool.and_false] at hfr
              exact absurd hfr (by simp)
            · rfl
          have h0 : data.getD 0 0 &&& 128 = 0 := by
            rcases hz : (data.getD 0 0 &&& 128 != 0) with _ | _
            · simpa using hz
            · rw [hz] at hfr
              exact absurd hfr (by simp)
          have hRt : headerRejected data = true := by
            rw [headerRejected_some_eq data op2 hdec, h1, decide_eq_true h0]
            simp
          rw [hRt]
          simp [exceptIsError]
        · rw [if_neg hfr]
          have hfinr : op2.is_control = true → ¬(data.getD 0 0 &&& 128 = 0) := by
            intro hb h0
            apply hfr
            rw [hb, Bool.and_true, show (data.getD 0 0 &&& 128 != 0) = false from
              by rw [h0]; rfl]
            rfl
          have hX0 : (op2.is_control && decide (data.getD 0 0 &&& 128 = 0)) =
              false := by
            rcases hb : op2.is_control with _ | _
            · rw [Bool.false_and]
            · rw [Bool.true_and, decide_eq_false (hfinr hb)]
          by_cases h126c : data.getD 1 0 &&& 127 = 126
          · rw [if_pos h126c]
            by_cases hl4 : data.length < 4
            · rw [if_pos hl4]
              have hres : resolvedLen data = none := by
                unfold resolvedLen
                rw [if_pos h126c, if_pos hl4]
              rw [headerRejected_some_none data op2 hdec hres,
                decide_eq_false hx, Bool.false_or, hX0]
              simp [exceptIsError]
            · rw [if_neg hl4]
              have hres : resolvedLen data =
                  some (u16_from_be (data.getD 2 0) (data.getD 3 0)) := by
                unfold resolvedLen
                rw [if_pos h126c, if_neg hl4]
              rw [finishHeader_isError,
                headerRejected_some_some data op2 _ hdec hres,
                decide_eq_false hx, Bool.false_or]
              rcases hb : op2.is_control with _ | _
              · rw [Bool.and_false, Bool.false_and]
              · rw [Bool.and_true, Bool.true_and,
                  decide_eq_false (hfinr hb), Bool.false_or]
          · rw [if_neg h126c]
            by_cases h127c : data.getD 1 0 &&& 127 = 127
            · rw [if_pos h127c]
              by_cases hl10 : data.length < 10
              · rw [if_pos hl10]
                have hres : resolvedLen data = none := by
                  unfold resolvedLen
                  rw [if_neg h126c, if_pos h127c, if_pos hl10]
                rw [headerRejected_some_none data op2 hdec hres,
                  decide_eq_false hx, Bool.false_or, hX0]
                simp [exceptIsError]
              · rw [if_neg hl10]
                have hres : resolvedLen data =
                    some (u64_from_be (data.getD 2 0) (data.getD 3 0)
                      (data.getD 4 0) (data.getD 5 0) (data.getD 6 0)
                      (data.getD 7 0) (data.getD 8 0) (data.getD 9 0)) := by
                  unfold resolvedLen
                  rw [if_neg h126c, if_pos h127c, if_neg hl10]
                rw [finishHeader_isError,
                  headerRejected_some_some data op2 _ hdec hres,
                  decide_eq_false hx, Bool.false_or]
                rcases hb : op2.is_control with _ | _
                · rw [Bool.and_false, Bool.false_and]
                · rw [Bool.and_true, Bool.true_and,
                    decide_eq_false (hfinr hb), Bool.false_or]
            · rw [if_neg h127c]
              have hres : resolvedLen data = some (data.getD 1 0 &&& 127) := by
                unfold resolvedLen
                rw [if_neg h126c, if_neg h127c]
              have hple : data.getD 1 0 &&& 127 ≤ 127 := Nat.and_le_right
              have hnp : ¬(data.getD 1 0 &&& 127 > 125) := by omega
              rw [finishHeader_isError,
                headerRejected_some_some data op2 _ hdec hres,
                decide_eq_false hnp, decide_eq_false hx, Bool.false_or,
                Bool.false_and, Bool.or_false, hX0]
  · unfold create_frame
    by_cases hcc : op.toNat &&& 8 > 0 ∧ P.length > 125
    · rw [if_pos hcc]
      simp only [exceptIsError, true_iff]
      exact ⟨(is_control_iff op).mpr hcc.1, hcc.2⟩
    · rw [if_neg hcc]
      constructor
      · intro h
        simp [exceptIsError] at h
      · rintro ⟨hc1, hc2⟩
        exact absurd ⟨(is_control_iff op).mp hc1, hc2⟩ hcc

/-- Witness for C7: a Close frame with 16-bit resolved length 128 is
rejected, a 1-byte input requests one more byte, and a Ping with a 126-byte
payload is refused by `create_frame`. -/
theorem c7_malformed_rejection_witness :
    exceptIsError (FrameHeader.try_from_bytes [136, 126, 0, 128]) = true ∧
      FrameHeader.try_from_bytes [136] = .ok (.error 1) ∧
      exceptIsError (create_frame none (List.replicate 126 0) OpCode.Ping 0) =
        true :=
  ⟨((c7_malformed_rejection [136, 126, 0, 128] none [] OpCode.Ping 0).1
      (by decide)).mpr (by decide),
   (c7_malformed_rejection [136] none [] OpCode.Ping 0).2.1 (by decide),
   (c7_malformed_rejection [136] none (List.replicate 126 0) OpCode.Ping 0).2.2.mpr
     ⟨by decide, by rw [List.length_replicate]; decide⟩⟩

/-- Reader-side state of `WebSocketReader`: the buffered bytes of the
internal `ByteBuffer` and the optional partially-consumed `FrameHeader`
(whose `payload_len` counts the unread payload bytes of the current frame).
Modelled from the spec: the `ByteBuffer` of the proxmox crate (not among
the provided sources) is a byte queue — `read_from_async` appends what the
underlying reader delivers, `consume` drops bytes at the front and
`remove_data` removes and returns them. -/
structure RState where
  buffer : List Nat
  header : Option FrameHeader
deriving DecidableEq, Repr

/-- The explicit reader phases `NoData`/`HaveData` of `ReaderState`
(`WaitingForData` is resolved immediately by the chunk schedule). -/
inductive RdPhase where
  | noData
  | haveData
deriving DecidableEq, Repr

/-- Position in the `poll_read` loop: at a phase of `ReaderState`, or about
to run the control-frame/data-frame handling with header `h` in hand. -/
inductive RdStep where
  | phase (ph : RdPhase)
  | handle (h : FrameHeader)
deriving DecidableEq, Repr

/-- One `poll_read` call of `WebSocketReader`, fuel-indexed.  `chunks` is
the schedule of byte groups the underlying reader delivers on successive
refills (an empty group or an exhausted schedule is EOF, the read returning
0); `space` is the caller buffer size (`buf.len()`); `acc` mirrors the
`offset` already copied out.  Returns the bytes handed to the caller, the
control messages pushed on the channel, the final state, the unconsumed
schedule and the phase left behind.  Mirrors the source loop: a fresh
header is parsed from the buffer (incomplete data refills), a control
frame requires its full payload buffered and is pushed unmasked to the
channel, a data frame copies `min(space - offset, min(payload_len,
buffered))` bytes, unmasks them with `mask_bytes` applied to just that
chunk, and returns as soon as `offset > 0`. -/
def pollRead : Nat → RdStep → RState → List (List Nat) → Nat → List Nat →
    List (OpCode × List Nat) →
    Except String (List Nat × List (OpCode × List Nat) × RState ×
      List (List Nat) × RdPhase)
  | 0, _, _, _, _, _, _ => .error "out of fuel"
  | fuel + 1, .phase .noData, st, chunks, space, acc, ctl =>
    match chunks with
    | [] => .ok ([], ctl, st, [], .haveData)
    | c :: rest =>
      if c.isEmpty then
        .ok ([], ctl, { st with buffer := st.buffer ++ c }, rest, .haveData)
      else pollRead fuel (.phase .haveData) { st with buffer := st.buffer ++ c }
        rest space acc ctl
  | fuel + 1, .phase .haveData, st, chunks, space, acc, ctl =>
    match st.header with
    | none =>
      match FrameHeader.try_from_bytes st.buffer with
      | .error e => .error e
      | .ok (.error _) => pollRead fuel (.phase .noData) st chunks space acc ctl
      | .ok (.ok h) =>
        pollRead fuel (.handle h)
          { buffer := st.buffer.drop h.header_len, header := none }
          chunks space acc ctl
    | some h => pollRead fuel (.handle h) { st with header := none }
        chunks space acc ctl
  | fuel + 1, .handle h, st, chunks, space, acc, ctl =>
    if h.is_control_frame then
      if h.payload_len ≤ st.buffer.length then
        pollRead fuel
          (.phase (if (st.buffer.drop h.payload_len).isEmpty then .noData
            else .haveData))
          { buffer := st.buffer.drop h.payload_len, header := none }
          chunks space acc
          (ctl ++ [(h.frametype,
            mask_bytes h.mask 0 (st.buffer.take h.payload_len))])
      else pollRead fuel (.phase .noData) { buffer := st.buffer, header := some h }
        chunks space acc ctl
    else
      let len := min (space - acc.length) (min h.payload_len st.buffer.length)
      let acc2 := acc ++ mask_bytes h.mask 0 (st.buffer.take len)
      let buf2 := st.buffer.drop len
      let hdr2 : Option FrameHeader :=
        if h.payload_len - len > 0 then
          some ⟨h.fin, h.mask, h.frametype, h.header_len, h.payload_len - len⟩
        else none
      let ph2 := if buf2.isEmpty then RdPhase.noData else RdPhase.haveData
      if acc2.length > 0 then .ok (acc2, ctl, ⟨buf2, hdr2⟩, chunks, ph2)
      else pollRead fuel (.phase ph2) ⟨buf2, hdr2⟩ chunks space acc2 ctl

/-- C5 is a code bug: the frame for masked payload `[0, 0]` with mask
`[1, 2, 3, 4]` carries masked bytes `[1, 2]`.  A caller reading one byte
per `poll_read` call receives `0` (correct) and then `3`: the source
unmasks each removed chunk with the mask starting again at phase 0, so the
second payload byte is XORed with `mask[0]` instead of `mask[1]`, and the
returned bytes are not the unmasked payload of the data frame. -/
theorem c5_reader_mask_phase_bug :
    create_frame (some [1, 2, 3, 4]) [0, 0] OpCode.Binary 0 =
        .ok [130, 130, 1, 2, 3, 4, 1, 2] ∧
      pollRead 10 (.phase .noData) ⟨[], none⟩ [[130, 130, 1, 2, 3, 4, 1, 2]] 1
          [] [] =
        .ok ([0], [], ⟨[2], some ⟨true, some [1, 2, 3, 4], OpCode.Binary, 6, 1⟩⟩,
          [], .haveData) ∧
      pollRead 10 (.phase .haveData)
          ⟨[2], some ⟨true, some [1, 2, 3, 4], OpCode.Binary, 6, 1⟩⟩ [] 1 [] [] =
        .ok ([3], [], ⟨[], none⟩, [], .noData) ∧
      naiveMaskFrom [1, 2, 3, 4] 0 [1, 2] = [0, 0] :=
  ⟨rfl, rfl, rfl, rfl⟩

/-- One scheduling event inside the `select!` of `copy_to_websocket`:
either the downstream read completes with a byte group (`[]` = EOF), or
the control channel delivers `(opcode, payload)`. -/
inductive Event where
  | data (chunk : List Nat)
  | control (op : OpCode) (msg : List Nat)
deriving DecidableEq, Repr

/-- `WebSocket::copy_to_websocket`, driven by an event schedule: downstream
bytes are buffered and flushed as one frame per iteration through the
`WebSocketWriter` (mask `None`, frametype fixed by `text`); a Ping is
answered with an echoed Pong; a Close is echoed and ends the task with
`Ok(true)`; other control opcodes are ignored; EOF with an empty buffer
ends with `Ok(false)`; an exhausted schedule is the closed-control-channel
error.  Returns the flag and the frames written upstream, in order. -/
def copyToWs (text : Bool) : List Event → Except String (Bool × List (List Nat))
  | [] => .error "control channel closed"
  | .data c :: rest =>
    if c.isEmpty then .ok (false, [])
    else
      match create_frame none c (if text then .Text else .Binary) 0 with
      | .error e => .error e
      | .ok f =>
        match copyToWs text rest with
        | .error e => .error e
        | .ok (b, fs) => .ok (b, f :: fs)
  | .control op msg :: rest =>
    match op with
    | .Ping =>
      match create_frame none msg .Pong 0 with
      | .error e => .error e
      | .ok f =>
        match copyToWs text rest with
        | .error e => .error e
        | .ok (b, fs) => .ok (b, f :: fs)
    | .Close =>
      match create_frame none msg .Close 0 with
      | .error e => .error e
      | .ok f => .ok (true, [f])
    | _ => copyToWs text rest

/-- The `select!` outcome handling of `WebSocket::serve_connection` when
the downstream-to-websocket task finishes first: on `Ok(false)` (EOF
without a client Close) a Close frame with payload `[0x03, 0xE8]` (status
1000) is sent before returning `Ok`; on `Ok(true)` nothing more is sent. -/
def serve_connection (text : Bool) (evs : List Event) :
    Except String (List (List Nat)) :=
  match copyToWs text evs with
  | .error e => .error e
  | .ok (sent_close, fs) =>
    if sent_close then .ok fs
    else
      match create_frame none [3, 232] .Close 0 with
      | .error e => .error e
      | .ok cf => .ok (fs ++ [cf])

/-- C6: close on downstream EOF.  If the schedule delivers no client Close
(every Ping payload within control-frame bounds) and downstream reaches
EOF, `copy_to_websocket` returns `Ok(false)` and `serve_connection` writes
the Close frame `[0x88, 0x02, 0x03, 0xE8]` (status 1000) to the upstream
as its final frame before returning `Ok`; and whenever the copy task
returns `Ok(true)` (a client Close was already echoed), no additional
Close frame is sent. -/
theorem c6_close_on_downstream_eof (text : Bool) (evs : List Event)
    (hnoclose : ∀ op msg, Event.control op msg ∈ evs → op ≠ OpCode.Close)
    (hping : ∀ msg, Event.control OpCode.Ping msg ∈ evs → msg.length ≤ 125)
    (heof : Event.data [] ∈ evs) :
    (∃ fs, copyToWs text evs = .ok (false, fs) ∧
      serve_connection text evs = .ok (fs ++ [[136, 2, 3, 232]])) ∧
    (∀ evs2 fs, copyToWs text evs2 = .ok (true, fs) →
      serve_connection text evs2 = .ok fs) := by
  have hserve : ∀ evs3 fs, copyToWs text evs3 = .ok (false, fs) →
      serve_connection text evs3 = .ok (fs ++ [[136, 2, 3, 232]]) := by
    intro evs3 fs h
    unfold serve_connection
    rw [h]
    rfl
  constructor
  · suffices hex : ∃ fs, copyToWs text evs = .ok (false, fs) by
      obtain ⟨fs, hfs⟩ := hex
      exact ⟨fs, hfs, hserve evs fs hfs⟩
    clear hserve
    induction evs with
    | nil => simp at heof
    | cons e rest ih =>
      cases e with
      | data c =>
        by_cases hec : c.isEmpty
        · refine ⟨[], ?_⟩
          simp only [copyToWs]
          rw [if_pos hec]
        · have hfr : ∃ f, create_frame none c
              (if text then OpCode.Text else OpCode.Binary) 0 = .ok f := by
            unfold create_frame
            rw [if_neg (by rintro ⟨hc, _⟩; revert hc; cases text <;> decide)]
            exact ⟨_, rfl⟩
          obtain ⟨f, hf⟩ := hfr
          have hrest : Event.data [] ∈ rest := by
            rcases List.mem_cons.mp heof with h | h
            · exfalso
              cases h
              exact hec rfl
            · exact h
          obtain ⟨fs0, hfs0⟩ := ih
            (fun op msg hm => hnoclose op msg (List.mem_cons_of_mem _ hm))
            (fun msg hm => hping msg (List.mem_cons_of_mem _ hm)) hrest
          refine ⟨f :: fs0, ?_⟩
          simp only [copyToWs]
          rw [if_neg hec, hf, hfs0]
      | control op msg =>
        have hrest : Event.data [] ∈ rest := by
          rcases List.mem_cons.mp heof with h | h
          · exact absurd h (by simp)
          · exact h
        have ihr := ih
          (fun op2 msg2 hm => hnoclose op2 msg2 (List.mem_cons_of_mem _ hm))
          (fun msg2 hm => hping msg2 (List.mem_cons_of_mem _ hm)) hrest
        cases op with
        | Ping =>
          have hfr : ∃ f, create_frame none msg OpCode.Pong 0 = .ok f := by
            unfold create_frame
            rw [if_neg (by
              rintro ⟨_, hgt⟩
              have := hping msg (List.mem_cons_self _ _)
              omega)]
            exact ⟨_, rfl⟩
          obtain ⟨f, hf⟩ := hfr
          obtain ⟨fs0, hfs0⟩ := ihr
          refine ⟨f :: fs0, ?_⟩
          simp only [copyToWs]
          rw [hf, hfs0]
        | Close =>
          exact absurd rfl (hnoclose OpCode.Close msg (List.mem_cons_self _ _))
        | Continuation =>
          obtain ⟨fs0, hfs0⟩ := ihr
          exact ⟨fs0, by simp only [copyToWs]; rw [hfs0]⟩
        | Text =>
          obtain ⟨fs0, hfs0⟩ := ihr
          exact ⟨fs0, by simp only [copyToWs]; rw [hfs0]⟩
        | Binary =>
          obtain ⟨fs0, hfs0⟩ := ihr
          exact ⟨fs0, by simp only [copyToWs]; rw [hfs0]⟩
        | Pong =>
          obtain ⟨fs0, hfs0⟩ := ihr
          exact ⟨fs0, by simp only [copyToWs]; rw [hfs0]⟩
  · intro evs2 fs h
    unfold serve_connection
    rw [h]
    rfl

/-- Witness for C6 at a schedule with one Ping, one data group and EOF. -/
theorem c6_close_on_downstream_eof_witness :
    (∃ fs, copyToWs false [Event.control OpCode.Ping [7], Event.data [1, 2],
        Event.data []] = .ok (false, fs) ∧
      serve_connection false [Event.control OpCode.Ping [7], Event.data [1, 2],
        Event.data []] = .ok (fs ++ [[136, 2, 3, 232]])) ∧
    (∀ evs2 fs, copyToWs false evs2 = .ok (true, fs) →
      serve_connection false evs2 = .ok fs) :=
  c6_close_on_downstream_eof false
    [Event.control OpCode.Ping [7], Event.data [1, 2], Event.data []]
    (by
      intro op msg hm
      simp only [List.mem_cons, List.not_mem_nil, or_false] at hm
      rcases hm with h | h | h <;> cases h <;> decide)
    (by
      intro msg hm
      simp only [List.mem_cons, List.not_mem_nil, or_false] at hm
      rcases hm with h | h | h <;> cases h <;> decide)
    (by decide)

/-- `contains_tls_handshake_fragment` from the source: at least 5 bytes,
content type handshake (0x16), major version 3 (any minor version), and
the 16-bit length from bytes 3-4 at most `2^14` = 16384. -/
def contains_tls_handshake_fragment (buf : List Nat) : Bool :=
  if buf.length < 5 then false
  else decide (buf.getD 0 0 = 22) && decide (buf.getD 1 0 = 3) &&
    decide (buf.getD 3 0 * 256 + buf.getD 4 0 ≤ 16384)

/-- The 128-byte peek buffer handed to the fragment check: the peeked
prefix, zero-padded to 128 bytes (the source buffer is `[0u8; 128]`, only
the first `peek_size` bytes are overwritten, and successive peeks are
nondecreasing prefixes of one stream, so the remainder is still zero). -/
def padTo128 (peek : List Nat) : List Nat :=
  peek.take 128 ++ List.replicate (128 - (peek.take 128).length) 0

/-- `AcceptBuilder::wait_for_client_tls_handshake`, driven by the list of
successive peek results: true as soon as the TLS fragment check matches,
false when no new bytes arrived between two polls (`peek_size ==
last_peek_size`), false when the schedule is exhausted (the 1-second
timeout elapses, `unwrap_or(Ok(false))`). -/
def wait_for_client_tls_handshake : List (List Nat) → Nat → Bool
  | [], _ => false
  | peek :: rest, lastSize =>
    if contains_tls_handshake_fragment (padTo128 peek) then true
    else if peek.length = lastSize then false
    else wait_for_client_tls_handshake rest peek.length

/-- The TLS record shape of the claim on the first five stream bytes. -/
def tlsShape (s : List Nat) : Bool :=
  decide (s.getD 0 0 = 22) && decide (s.getD 1 0 = 3) &&
    decide (s.getD 3 0 * 256 + s.getD 4 0 ≤ 16384)

theorem padTo128_getD (peek : List Nat) (i : Nat) (h5 : i < 5)
    (hlen : 5 ≤ peek.length) :
    (padTo128 peek).getD i 0 = peek.getD i 0 := by
  unfold padTo128
  rw [List.getD_append]
  · rcases Nat.lt_or_ge peek.length 128 with hc | hc
    · rw [List.take_of_length_le (by omega)]
    · rw [List.getD_eq_getElem?_getD, List.getD_eq_getElem?_getD,
        List.getElem?_take, if_pos (by omega)]
  · rw [List.length_take]
    omega

theorem contains_pad (peek : List Nat) (hlen : 5 ≤ peek.length) :
    contains_tls_handshake_fragment (padTo128 peek) = tlsShape peek := by
  unfold contains_tls_handshake_fragment tlsShape
  rw [if_neg (by
    unfold padTo128
    rw [List.length_append, List.length_replicate, List.length_take]
    omega)]
  rw [padTo128_getD peek 0 (by omega) hlen, padTo128_getD peek 1 (by omega) hlen,
    padTo128_getD peek 3 (by omega) hlen, padTo128_getD peek 4 (by omega) hlen]

theorem tlsShape_take (s : List Nat) (n : Nat) (h5 : 5 ≤ n) :
    tlsShape (s.take n) = tlsShape s := by
  unfold tlsShape
  rw [List.getD_eq_getElem?_getD, List.getD_eq_getElem?_getD,
    List.getD_eq_getElem?_getD, List.getD_eq_getElem?_getD]
  simp only [List.getElem?_take]
  rw [if_pos (by omega), if_pos (by omega), if_pos (by omega),
    if_pos (by omega),
    ← List.getD_eq_getElem?_getD, ← List.getD_eq_getElem?_getD,
    ← List.getD_eq_getElem?_getD, ← List.getD_eq_getElem?_getD]

theorem wait_false_of_no_shape (s : List Nat) (hs : tlsShape s = false) :
    ∀ (sizes : List Nat) (lastSize : Nat), (∀ n ∈ sizes, 5 ≤ n ∧ n ≤ s.length) →
      wait_for_client_tls_handshake (sizes.map (fun n => s.take n)) lastSize =
        false := by
  intro sizes
  induction sizes with
  | nil => intro lastSize _; rfl
  | cons n rest ih =>
    intro lastSize hsz
    have hn := hsz n (List.mem_cons_self _ _)
    have hcp : contains_tls_handshake_fragment (padTo128 (s.take n)) = false := by
      rw [contains_pad (s.take n) (by rw [List.length_take]; omega),
        tlsShape_take s n hn.1, hs]
    simp only [List.map_cons, wait_for_client_tls_handshake]
    rw [hcp]
    simp only [Bool.false_eq_true, if_false]
    by_cases hl : (s.take n).length = lastSize
    · rw [if_pos hl]
    · rw [if_neg hl]
      exact ih _ (fun m hm => hsz m (List.mem_cons_of_mem _ hm))

set_option maxRecDepth 4000 in
/-- C8 counterexample: the stream `[0x16, 0x03, 0x01, 0xFF, 0xFF]` does not
match the TLS record shape (its record length 65535 exceeds 16384), so the
claim classifies it as plaintext; yet when the first peek delivers only
its first 2 bytes, the zero-padded 128-byte buffer `[0x16, 0x03, 0, 0, 0,
...]` passes `contains_tls_handshake_fragment` (padded length 0 is at most
16384) and the loop routes the connection to TLS. -/
theorem c8_tls_sniffing_counterexample :
    wait_for_client_tls_handshake
        ([2, 5].map (fun n => ([22, 3, 1, 255, 255] : List Nat).take n)) 0 =
        true ∧
      tlsShape [22, 3, 1, 255, 255] = false := by
  decide

theorem wait_true_has_match :
    ∀ (peeks : List (List Nat)) (lastSize : Nat),
      wait_for_client_tls_handshake peeks lastSize = true →
      ∃ q ∈ peeks, contains_tls_handshake_fragment (padTo128 q) = true := by
  intro peeks
  induction peeks with
  | nil =>
    intro lastSize h
    simp [wait_for_client_tls_handshake] at h
  | cons q rest ih =>
    intro lastSize h
    by_cases hc : contains_tls_handshake_fragment (padTo128 q) = true
    · exact ⟨q, List.mem_cons_self _ _, hc⟩
    · unfold wait_for_client_tls_handshake at h
      rw [if_neg hc] at h
      by_cases hl : q.length = lastSize
      · rw [if_pos hl] at h
        exact absurd h (by simp)
      · rw [if_neg hl] at h
        obtain ⟨q2, hq2, hcq2⟩ := ih q.length h
        exact ⟨q2, List.mem_cons_of_mem _ hq2, hcq2⟩

/-- C8 (amended): the sniff loop routes a connection to TLS exactly when
the zero-padded 128-byte peek buffer of some reached peek passes the TLS
fragment check — with fewer than 5 peeked bytes the zero padding stands in
for the missing bytes, so the check can pass (e.g. a client that sent only
`[0x16, 0x03]`) even though the stream's first five bytes fail the shape.
When every peek already delivers at least 5 bytes this is exactly when the
first five stream bytes match the record shape — `byte0 = 0x16`,
`byte1 = 0x3`, big-endian length from bytes 3-4 at most 16384.  An
exhausted poll budget (the 1-second timeout) and a stalled peek size are
classified as plaintext. -/
theorem c8_tls_sniffing_amended (s : List Nat) (sizes : List Nat)
    (peek : List Nat) (rest peeks : List (List Nat)) (lastSize : Nat)
    (hne : sizes ≠ []) (hsz : ∀ n ∈ sizes, 5 ≤ n ∧ n ≤ s.length) :
    (wait_for_client_tls_handshake (sizes.map (fun n => s.take n)) 0 = true ↔
      tlsShape s = true) ∧
    wait_for_client_tls_handshake [] lastSize = false ∧
    (contains_tls_handshake_fragment (padTo128 peek) = false →
      peek.length = lastSize →
      wait_for_client_tls_handshake (peek :: rest) lastSize = false) ∧
    (contains_tls_handshake_fragment (padTo128 peek) = true →
      wait_for_client_tls_handshake (peek :: rest) lastSize = true) ∧
    (wait_for_client_tls_handshake peeks lastSize = true →
      ∃ q ∈ peeks, contains_tls_handshake_fragment (padTo128 q) = true) := by
  refine ⟨?_, rfl, ?_, ?_, wait_true_has_match peeks lastSize⟩
  · rcases hsh : tlsShape s with _ | _
    · rw [wait_false_of_no_shape s hsh sizes 0 hsz]
    · rcases sizes with _ | ⟨n, rest2⟩
      · exact absurd rfl hne
      · have hn := hsz n (List.mem_cons_self _ _)
        have hcp : contains_tls_handshake_fragment (padTo128 (s.take n)) =
            true := by
          rw [contains_pad (s.take n) (by rw [List.length_take]; omega),
            tlsShape_take s n hn.1, hsh]
        simp only [List.map_cons, wait_for_client_tls_handshake]
        rw [hcp]
        simp
  · intro hc hl
    unfold wait_for_client_tls_handshake
    rw [hc]
    simp only [Bool.false_eq_true, if_false]
    rw [if_pos hl]
  · intro hc
    unfold wait_for_client_tls_handshake
    rw [if_pos hc]

set_option maxRecDepth 4000 in
/-- Witness for the amended C8: the stream
`[0x16, 0x03, 0x01, 0x00, 0x05, 0xFF]` classifies as TLS, the stream
`"GET / HTTP/1.1\r\n"` classifies as plaintext, and a lone 2-byte peek
`[0x16, 0x03]` already routes to TLS through the zero-padded buffer. -/
theorem c8_tls_sniffing_amended_witness :
    (wait_for_client_tls_handshake
        ([5].map (fun n => ([22, 3, 1, 0, 5, 255] : List Nat).take n)) 0 = true ↔
      tlsShape [22, 3, 1, 0, 5, 255] = true) ∧
    (wait_for_client_tls_handshake
        ([16].map (fun n => ([71, 69, 84, 32, 47, 32, 72, 84, 84, 80, 47, 49,
          46, 49, 13, 10] : List Nat).take n)) 0 = true ↔
      tlsShape [71, 69, 84, 32, 47, 32, 72, 84, 84, 80, 47, 49, 46, 49, 13, 10] =
        true) ∧
    tlsShape [22, 3, 1, 0, 5, 255] = true ∧
    tlsShape [71, 69, 84, 32, 47, 32, 72, 84, 84, 80, 47, 49, 46, 49, 13, 10] =
      false ∧
    wait_for_client_tls_handshake [[22, 3]] 5 = true :=
  ⟨(c8_tls_sniffing_amended [22, 3, 1, 0, 5, 255] [5] [] [] [] 0 (by decide)
      (by intro n hn; simp at hn; subst hn; decide)).1,
   (c8_tls_sniffing_amended [71, 69, 84, 32, 47, 32, 72, 84, 84, 80, 47, 49, 46,
      49, 13, 10] [16] [] [] [] 0 (by decide)
      (by intro n hn; simp at hn; subst hn; decide)).1,
   by decide, by decide,
   (c8_tls_sniffing_amended [22, 3, 1, 0, 5, 255] [5] [22, 3] [] [] 5 (by decide)
      (by intro n hn; simp at hn; subst hn; decide)).2.2.2.1 (by decide)⟩

/-- Where a finished handshake task delivered its stream: the TLS path
publishes on the secure channel, the plaintext path of
`do_accept_tls_optional` publishes on the insecure channel, and a failed
or timed-out handshake publishes nothing. -/
inductive FinishKind where
  | secure
  | insecure
  | failed
deriving DecidableEq, Repr

/-- Observable state of `accept_connections`: connection ids whose
handshake tasks are in flight (each holding one clone of the accept
token), ids published on the secure and insecure channels, and ids dropped
by admission control. -/
structure AcceptState where
  inflight : List Nat
  publishedSecure : List Nat
  publishedInsecure : List Nat
  rejected : List Nat
deriving DecidableEq, Repr

/-- The loop starts with no in-flight handshakes and empty channels. -/
def initAccept : AcceptState := ⟨[], [], [], []⟩

/-- One accept-loop event: a raw connection `c` is accepted by the
listener, or the in-flight handshake task for `c` finishes with the given
outcome. -/
inductive AEvent where
  | accept (c : Nat)
  | finish (c : Nat) (k : FinishKind)
deriving DecidableEq, Repr

/-- One transition of `accept_connections`.  On accept the loop clones the
accept token and tests `Arc::strong_count(&accept_counter) >
max_pending_accepts`; the strong count at that point is 1 for the loop's
own base reference, plus one per in-flight task, plus 1 for the clone just
made for this connection.  If the test fires the connection is dropped
(`continue`) without spawning; otherwise a handshake task is spawned and
the clone moves into it.  On finish the task's id leaves `inflight` (its
token clone is dropped on every exit path) and a successful handshake
publishes the stream on its channel. -/
def astep (maxPending : Nat) (s : AcceptState) : AEvent → AcceptState
  | .accept c =>
    if 1 + s.inflight.length + 1 > maxPending then
      { s with rejected := c :: s.rejected }
    else { s with inflight := c :: s.inflight }
  | .finish c k =>
    if c ∈ s.inflight then
      { inflight := s.inflight.erase c,
        publishedSecure := if k = .secure then c :: s.publishedSecure
          else s.publishedSecure,
        publishedInsecure := if k = .insecure then c :: s.publishedInsecure
          else s.publishedInsecure,
        rejected := s.rejected }
    else s

/-- The accept-loop state reached after a sequence of events. -/
def runAccept (maxPending : Nat) (evs : List AEvent) : AcceptState :=
  evs.foldl (astep maxPending) initAccept

theorem astep_inflight_le (maxPending : Nat) :
    ∀ (evs : List AEvent) (s : AcceptState), s.inflight.length ≤ maxPending →
      (evs.foldl (astep maxPending) s).inflight.length ≤ maxPending := by
  intro evs
  induction evs with
  | nil => intro s hs; exact hs
  | cons e rest ih =>
    intro s hs
    rw [List.foldl_cons]
    refine ih _ ?_
    cases e with
    | accept c =>
      simp only [astep]
      by_cases hc : 1 + s.inflight.length + 1 > maxPending
      · rw [if_pos hc]
        exact hs
      · rw [if_neg hc]
        simp only [List.length_cons]
        omega
    | finish c k =>
      simp only [astep]
      by_cases hc : c ∈ s.inflight
      · rw [if_pos hc]
        have := (List.erase_sublist c s.inflight).length_le
        simp only []
        omega
      · rw [if_neg hc]
        exact hs

theorem not_published_of_not_accepted (maxPending : Nat) :
    ∀ (evs : List AEvent) (s : AcceptState) (c : Nat),
      c ∉ s.inflight → c ∉ s.publishedSecure → (∀ e ∈ evs, e ≠ .accept c) →
      c ∉ (evs.foldl (astep maxPending) s).publishedSecure ∧
        c ∉ (evs.foldl (astep maxPending) s).inflight := by
  intro evs
  induction evs with
  | nil => intro s c h1 h2 _; exact ⟨h2, h1⟩
  | cons e rest ih =>
    intro s c h1 h2 hev
    rw [List.foldl_cons]
    refine ih _ c ?_ ?_ (fun e2 he2 => hev e2 (List.mem_cons_of_mem _ he2))
    · cases e with
      | accept c2 =>
        have hne : c2 ≠ c := by
          intro hq
          exact hev (.accept c2) (List.mem_cons_self _ _) (by rw [hq])
        simp only [astep]
        by_cases hc : 1 + s.inflight.length + 1 > maxPending
        · rw [if_pos hc]
          exact h1
        · rw [if_neg hc]
          simp only [List.mem_cons]
          rintro (hq | hq)
          · exact hne hq.symm
          · exact h1 hq
      | finish c2 k =>
        simp only [astep]
        by_cases hc : c2 ∈ s.inflight
        · rw [if_pos hc]
          simp only []
          intro hmem
          exact h1 (List.mem_of_mem_erase hmem)
        · rw [if_neg hc]
          exact h1
    · cases e with
      | accept c2 =>
        simp only [astep]
        by_cases hc : 1 + s.inflight.length + 1 > maxPending
        · rw [if_pos hc]
          exact h2
        · rw [if_neg hc]
          exact h2
      | finish c2 k =>
        have hne : c2 ≠ c ∨ c2 ∉ s.inflight := by
          by_cases hq : c2 = c
          · subst hq
            exact Or.inr h1
          · exact Or.inl hq
        simp only [astep]
        by_cases hc : c2 ∈ s.inflight
        · rw [if_pos hc]
          simp only []
          by_cases hk : k = FinishKind.secure
          · rw [if_pos hk]
            simp only [List.mem_cons]
            rintro (hq | hq)
            · rcases hne with hne | hne
              · exact hne hq.symm
              · exact hne hc
            · exact h2 hq
          · rw [if_neg hk]
            exact h2
        · rw [if_neg hc]
          exact h2

/-- C9: admission ceiling.  In every reachable state of the accept loop the
number of in-flight handshake tasks never exceeds `max_pending_accepts`;
and once `max_pending_accepts` handshakes are outstanding, the next
accepted raw connection is dropped without spawning a handshake task and —
as long as it is never re-accepted — never appears on the secure channel. -/
theorem c9_admission_ceiling (maxPending : Nat) (evs evs2 : List AEvent) (c : Nat) :
    (runAccept maxPending evs).inflight.length ≤ maxPending ∧
    ((runAccept maxPending evs).inflight.length = maxPending →
      (astep maxPending (runAccept maxPending evs) (.accept c)).inflight =
          (runAccept maxPending evs).inflight ∧
        (astep maxPending (runAccept maxPending evs) (.accept c)).rejected =
          c :: (runAccept maxPending evs).rejected ∧
        (c ∉ (runAccept maxPending evs).inflight →
          c ∉ (runAccept maxPending evs).publishedSecure →
          (∀ e ∈ evs2, e ≠ .accept c) →
          c ∉ (List.foldl (astep maxPending)
            (astep maxPending (runAccept maxPending evs) (.accept c))
            evs2).publishedSecure)) := by
  constructor
  · exact astep_inflight_le maxPending evs initAccept (by simp [initAccept])
  · intro hfull
    have hrej : astep maxPending (runAccept maxPending evs) (.accept c) =
        { runAccept maxPending evs with
          rejected := c :: (runAccept maxPending evs).rejected } := by
      simp only [astep]
      rw [if_pos (by omega)]
    refine ⟨by rw [hrej], by rw [hrej], ?_⟩
    intro h1 h2 hev
    rw [hrej]
    exact (not_published_of_not_accepted maxPending evs2
      { runAccept maxPending evs with
        rejected := c :: (runAccept maxPending evs).rejected } c h1 h2 hev).1

/-- Witness for C9 at `max_pending_accepts = 0` (the ceiling is reached
immediately) with a rejected connection id 5. -/
theorem c9_admission_ceiling_witness :
    (runAccept 0 []).inflight.length ≤ 0 ∧
      (astep 0 (runAccept 0 []) (.accept 5)).inflight =
        (runAccept 0 []).inflight ∧
      5 ∉ ([AEvent.finish 5 .secure].foldl (astep 0)
        (astep 0 (runAccept 0 []) (.accept 5))).publishedSecure :=
  have h := c9_admission_ceiling 0 [] [AEvent.finish 5 .secure] 5
  ⟨h.1, (h.2 rfl).1, (h.2 rfl).2.2 (by decide) (by decide) (by decide)⟩

theorem small_max_empty (maxPending : Nat) (hm : maxPending ≤ 1) :
    ∀ (evs : List AEvent) (s : AcceptState), s.inflight = [] →
      s.publishedSecure = [] → s.publishedInsecure = [] →
      (evs.foldl (astep maxPending) s).inflight = [] ∧
        (evs.foldl (astep maxPending) s).publishedSecure = [] ∧
        (evs.foldl (astep maxPending) s).publishedInsecure = [] := by
  intro evs
  induction evs with
  | nil => intro s h1 h2 h3; exact ⟨h1, h2, h3⟩
  | cons e rest ih =>
    intro s h1 h2 h3
    rw [List.foldl_cons]
    cases e with
    | accept c =>
      refine ih _ ?_ ?_ ?_ <;> simp only [astep] <;>
        rw [if_pos (by rw [h1]; simp; omega)] <;> assumption
    | finish c k =>
      refine ih _ ?_ ?_ ?_ <;> simp only [astep] <;>
        rw [if_neg (by rw [h1]; simp)] <;> assumption

/-- C10: the admission check compares `Arc::strong_count` of the accept
token — counting the loop's own base reference and the clone already made
for the incoming connection in addition to the in-flight handshake tasks —
against `max_pending_accepts`, so a new connection is rejected as soon as
`max_pending_accepts - 1` handshakes are in flight; and if
`max_pending_accepts ≤ 1` every accepted connection is rejected and no
stream is ever published on either channel. -/
theorem c10_admission_off_by_two (maxPending : Nat) (evs : List AEvent)
    (c : Nat) :
    ((runAccept maxPending evs).inflight.length ≥ maxPending - 1 →
      (astep maxPending (runAccept maxPending evs) (.accept c)).inflight =
          (runAccept maxPending evs).inflight ∧
        (astep maxPending (runAccept maxPending evs) (.accept c)).rejected =
          c :: (runAccept maxPending evs).rejected) ∧
    (maxPending ≤ 1 →
      (runAccept maxPending evs).inflight = [] ∧
        (runAccept maxPending evs).publishedSecure = [] ∧
        (runAccept maxPending evs).publishedInsecure = []) := by
  constructor
  · intro hge
    have hrej : astep maxPending (runAccept maxPending evs) (.accept c) =
        { runAccept maxPending evs with
          rejected := c :: (runAccept maxPending evs).rejected } := by
      simp only [astep]
      rw [if_pos (by omega)]
    exact ⟨by rw [hrej], by rw [hrej]⟩
  · intro hm
    exact small_max_empty maxPending hm evs initAccept rfl rfl rfl

/-- Witness for C10 at `max_pending_accepts = 1`: the first accepted
connection is already rejected and nothing is ever published. -/
theorem c10_admission_off_by_two_witness :
    ((astep 1 (runAccept 1 [AEvent.accept 3]) (.accept 9)).inflight =
        (runAccept 1 [AEvent.accept 3]).inflight ∧
      (astep 1 (runAccept 1 [AEvent.accept 3]) (.accept 9)).rejected =
        9 :: (runAccept 1 [AEvent.accept 3]).rejected) ∧
      (runAccept 1 [AEvent.accept 3]).inflight = [] ∧
      (runAccept 1 [AEvent.accept 3]).publishedSecure = [] ∧
      (runAccept 1 [AEvent.accept 3]).publishedInsecure = [] :=
  have h := c10_admission_off_by_two 1 [AEvent.accept 3] 9
  ⟨h.1 (by decide), h.2 (by decide)⟩
